import Mathlib

/-!
Verification of the `nanotime` civil-calendar time library.

The Rust source (src/lib.rs) is shallowly embedded below.  Machine integers
are modelled as `Nat`/`Int`:
  * `u64`/`u32`/`u16`/`u8` values are `Nat`s; wherever the Rust code performs
    a narrowing cast or an operation that can wrap, the embedding applies the
    corresponding `% 2^w` (or the wrap is proved impossible, see the
    range/no-overflow theorems below);
  * `i64`/`i128` intermediates are `Int`s, with Rust's truncating division
    `Int.tdiv` and explicit two's-complement wrapping where overflow is
    possible.
Strings are built from `List Char`; Rust's decimal formatting of an integer
is `fmtNat` (fuel-based decimal printer; fuel 40 covers every value below
10^40, which includes every `u64`/`u128` quantity the library ever prints).
-/

/-! ### Generic helpers (not part of the source) -/

/-- Two's-complement reinterpretation of a `u64` bit pattern as `i64`
(the Rust `as i64` cast). -/
def toI64 (n : Nat) : Int := if n < 2 ^ 63 then (n : Int) else (n : Int) - 2 ^ 64

/-- Wrap-around `i64` arithmetic (release-mode overflow semantics). -/
def wrapI64 (x : Int) : Int := (x + 2 ^ 63) % 2 ^ 64 - 2 ^ 63

/-- Two's-complement reinterpretation of a `u128` bit pattern as `i128`. -/
def toI128 (n : Nat) : Int := if n < 2 ^ 127 then (n : Int) else (n : Int) - 2 ^ 128

/-- Wrap-around `i128` arithmetic (release-mode overflow semantics). -/
def wrapI128 (x : Int) : Int := (x + 2 ^ 127) % 2 ^ 128 - 2 ^ 127

/-- The `as u64` cast of an `i64` value (two's complement, wraps). -/
def wrapU64 (x : Int) : Nat := (x % 2 ^ 64).toNat

/-- Bounded-range checker with binary splitting, structurally recursive on a
fuel argument so that the kernel can evaluate it on concrete inputs.
`checkRange P fuel lo n = true` certifies `P (lo + i)` for every `i < n`. -/
def checkRange (P : Nat → Bool) : Nat → Nat → Nat → Bool
  | 0, _, _ => false
  | fuel + 1, lo, n =>
    if n = 0 then true
    else if n = 1 then P lo
    else
      checkRange P fuel lo (n / 2) && checkRange P fuel (lo + n / 2) (n - n / 2)

/-- Fuel-based decimal printer: the digits of `n`, most significant first
(exactly Rust's `format!("{}", n)` for any `n < 10^fuel`). -/
def fmtNatAux : Nat → Nat → List Char
  | 0, _ => []
  | fuel + 1, n =>
    if n < 10 then [Nat.digitChar n]
    else fmtNatAux fuel (n / 10) ++ [Nat.digitChar (n % 10)]

/-- Rust's `format!("{}", n)` for a machine integer `n` (all values printed
by the library are below `2^128 < 10^40`). -/
def fmtNat (n : Nat) : String := String.mk (fmtNatAux 40 n)

/-- Rust's `format!("{:0w}", n)`: decimal, left-padded with zeros to width
`w`. -/
def padZ (w n : Nat) : String :=
  String.mk (List.replicate (w - (fmtNatAux 40 n).length) '0' ++ fmtNatAux 40 n)

/-- Byte slice `&s[..p]` of an ASCII string, as used on the zero-padded
nanosecond string in `datetime_fmt`. -/
def takeFirst (s : String) (p : Nat) : String := String.mk (s.data.take p)

/-! ### Calendar arithmetic (src/lib.rs, `is_leap_year` / `days_in_month`) -/

/-- `fn is_leap_year(year: u16) -> bool`. -/
def is_leap_year (year : Nat) : Bool :=
  (year % 4 == 0 && year % 100 != 0) || year % 400 == 0

/-- `fn days_in_month(year: u16, month: u8) -> u8`. -/
def days_in_month (year : Nat) (month : Nat) : Nat :=
  match month with
  | 1 | 3 | 5 | 7 | 8 | 10 | 12 => 31
  | 4 | 6 | 9 | 11 => 30
  | 2 => if is_leap_year year then 29 else 28
  | _ => 0

/-! ### The timestamp record (struct `NanoTime`)

Field order matches the Rust struct: year, month, day, hour, minute, second,
nanosecond (u16, u8, u8, u8, u8, u8, u32 in the source; `Nat` here, with the
u16 wrap of the year applied explicitly in `epoch_to_date`). -/

structure NanoTime where
  year : Nat
  month : Nat
  day : Nat
  hour : Nat
  minute : Nat
  second : Nat
  nanosecond : Nat
deriving DecidableEq

/-! ### `fn epoch_to_date(secs: u64) -> NanoTime`

The source works on `i64`/`u32` intermediates.  For every `u64` input the
day count `z = secs / 86400 + 719468` is non-negative and below `2^63`, so
the `i64` arithmetic is exact, the `else` branch of the era computation is
dead, and `z - era * 146097` equals `z % 146097` and fits `u32`; the
embedding therefore uses `Nat` throughout, and the no-overflow /
no-underflow facts are proved below (see the claim about totality).  Each
intermediate of the source is a named definition so theorems can speak about
it; `epoch_to_date` assembles them exactly as the source does. -/

/-- `let z = (secs / 86400) as i64 + 719468` (days since 1970-01-01, shifted
to the 0000-03-01 epoch). -/
def etdZ (secs : Nat) : Nat := secs / 86400 + 719468

/-- `let era = if z >= 0 { z } else { z - 146096 } / 146097` — `z ≥ 0`
always, so the negative branch is dead. -/
def etdEra (secs : Nat) : Nat := etdZ secs / 146097

/-- `let doe = (z - era * 146097) as u32` (day of era, in `[0, 146096]`). -/
def etdDoe (secs : Nat) : Nat := etdZ secs - etdEra secs * 146097

/-- `let yoe = (doe - doe / 1460 + doe / 36524 - doe / 146096) / 365`
(year of era, in `[0, 399]`). -/
def etdYoe (secs : Nat) : Nat :=
  (etdDoe secs - etdDoe secs / 1460 + etdDoe secs / 36524 - etdDoe secs / 146096) / 365

/-- `let y = (yoe as i64) + era * 400` (March-based year). -/
def etdY (secs : Nat) : Nat := etdYoe secs + etdEra secs * 400

/-- `let doy = doe - (365 * yoe + yoe / 4 - yoe / 100)` (day of year,
March-based, in `[0, 365]`). -/
def etdDoy (secs : Nat) : Nat :=
  etdDoe secs - (365 * etdYoe secs + etdYoe secs / 4 - etdYoe secs / 100)

/-- `let mp = (5 * doy + 2) / 153` (month proxy, 0 = March). -/
def etdMp (secs : Nat) : Nat := (5 * etdDoy secs + 2) / 153

/-- `let day = (doy - (153 * mp + 2) / 5 + 1) as u8`. -/
def etdDay (secs : Nat) : Nat := etdDoy secs - (153 * etdMp secs + 2) / 5 + 1

/-- `let month = if mp < 10 { mp + 3 } else { mp - 9 } as u8`. -/
def etdMonth (secs : Nat) : Nat :=
  if etdMp secs < 10 then etdMp secs + 3 else etdMp secs - 9

/-- `let year = (if month <= 2 { y + 1 } else { y }) as u16` — this is the
true (unwrapped) proleptic-Gregorian year, before the `u16` cast. -/
def etdYear (secs : Nat) : Nat :=
  if etdMonth secs ≤ 2 then etdY secs + 1 else etdY secs

/-- `fn epoch_to_date(secs: u64) -> NanoTime`.  The `as u16` cast of the
year is the `% 65536`; all other fields are proved to fit their integer
types below.  Time of day: `day_secs = secs % 86400`,
`hour = day_secs / 3600`, `minute = (day_secs % 3600) / 60`,
`second = day_secs % 60`; nanosecond is `0`. -/
def epoch_to_date (secs : Nat) : NanoTime :=
  ⟨etdYear secs % 65536, etdMonth secs, etdDay secs,
   secs % 86400 / 3600, secs % 86400 % 3600 / 60, secs % 86400 % 60, 0⟩

/-- The supported domain of epoch seconds: the true proleptic-Gregorian year
fits the `u16` year field. -/
def inDomain (secs : Nat) : Prop := etdYear secs ≤ 65535

instance (secs : Nat) : Decidable (inDomain secs) := by
  unfold inDomain; infer_instance

namespace NanoTime

/-- `NanoTime::new` — the validating constructor, check for check. -/
def new (year month day hour minute second nanosecond : Nat) : Option NanoTime :=
  if ¬(1 ≤ month ∧ month ≤ 12) then none
  else if day < 1 ∨ day > days_in_month year month then none
  else if hour > 23 then none
  else if minute > 59 then none
  else if second > 59 then none
  else if nanosecond > 999999999 then none
  else some ⟨year, month, day, hour, minute, second, nanosecond⟩

/-- `NanoTime::millisecond` — `(self.nanosecond / 1_000_000) as u16`
(the value is at most 4294, so the cast never truncates). -/
def millisecond (t : NanoTime) : Nat := t.nanosecond / 1000000

/-- `NanoTime::microsecond` — `self.nanosecond / 1_000`. -/
def microsecond (t : NanoTime) : Nat := t.nanosecond / 1000

/-- `NanoTime::from_epoch(secs: u64)` — wrapper around `epoch_to_date`. -/
def from_epoch (secs : Nat) : NanoTime := epoch_to_date secs

/-- `NanoTime::from_epoch_nanos(nanos: u128)`. -/
def from_epoch_nanos (nanos : Nat) : NanoTime :=
  let secs := nanos / 1000000000
  let sub_nanos := nanos % 1000000000
  let nt := epoch_to_date secs
  ⟨nt.year, nt.month, nt.day, nt.hour, nt.minute, nt.second, sub_nanos⟩

/-- `NanoTime::from_epoch_ms(ms: u64)`. -/
def from_epoch_ms (ms : Nat) : NanoTime :=
  let secs := ms / 1000
  let sub_ms := ms % 1000
  let nt := epoch_to_date secs
  ⟨nt.year, nt.month, nt.day, nt.hour, nt.minute, nt.second, sub_ms * 1000000⟩

/-- `NanoTime::from_epoch_us(us: u128)`. -/
def from_epoch_us (us : Nat) : NanoTime :=
  let secs := us / 1000000
  let sub_us := us % 1000000
  let nt := epoch_to_date secs
  ⟨nt.year, nt.month, nt.day, nt.hour, nt.minute, nt.second, sub_us * 1000⟩

/-- `NanoTime::now_utc`, modelled over the external UTC clock reading
(`SystemTime::now` returns `secs` whole seconds plus `nanos < 10^9`
sub-second nanoseconds; the core then converts and overlays). -/
def now_utc (secs nanos : Nat) : NanoTime :=
  let nt := epoch_to_date secs
  ⟨nt.year, nt.month, nt.day, nt.hour, nt.minute, nt.second, nanos⟩

/-- `platform::now` (unix), modelled over the external clock/localtime
reading: `none` models a failed `clock_gettime`/`localtime_r` call, in which
case the source returns the all-zero sentinel record; `some fields` models a
successful call returning already-localized calendar fields. -/
def platform_now (reading : Option NanoTime) : NanoTime :=
  match reading with
  | none => ⟨0, 0, 0, 0, 0, 0, 0⟩
  | some fields => fields

/-! #### `fn to_epoch_secs(&self) -> u64` (days_from_civil)

`y`, `era`, `days` are `i64` in the source (the year can be 0, making
`y = -1`); `yoe`, `doy`, `doe` are `u32`.  `Int.tdiv` is Rust's `i64`
division.  The final `(days as u64) * 86400 + …` wraps modulo `2^64`
(release semantics) — for dates at/after 1970-01-01 it is exact, as proved
below. -/

/-- `let y = if month <= 2 { year - 1 } else { year }` (`i64`). -/
def tesY (t : NanoTime) : Int :=
  if t.month ≤ 2 then (t.year : Int) - 1 else (t.year : Int)

/-- `let era = if y >= 0 { y } else { y - 399 } / 400` (`i64`, truncating). -/
def tesEra (t : NanoTime) : Int :=
  Int.tdiv (if 0 ≤ tesY t then tesY t else tesY t - 399) 400

/-- `let yoe = (y - era * 400) as u32` (in `[0, 399]`). -/
def tesYoe (t : NanoTime) : Nat := (tesY t - tesEra t * 400).toNat

/-- `let doy = (153 * (if m > 2 { m - 3 } else { m + 9 }) + 2) / 5 + d - 1`
(`u32`; `d ≥ 1` for every validated or converter-produced instance, so the
trailing `- 1` never underflows there). -/
def tesDoy (t : NanoTime) : Nat :=
  (153 * (if t.month > 2 then t.month - 3 else t.month + 9) + 2) / 5 + t.day - 1

/-- `let doe = yoe * 365 + yoe / 4 - yoe / 100 + doy` (`u32`). -/
def tesDoe (t : NanoTime) : Nat :=
  tesYoe t * 365 + tesYoe t / 4 - tesYoe t / 100 + tesDoy t

/-- `let days = era * 146097 + doe as i64 - 719468` (`i64`). -/
def tesDays (t : NanoTime) : Int := tesEra t * 146097 + (tesDoe t : Int) - 719468

/-- `fn to_epoch_secs(&self) -> u64`:
`(days as u64) * 86400 + hour*3600 + minute*60 + second`, `u64` wrap-around
arithmetic. -/
def to_epoch_secs (t : NanoTime) : Nat :=
  (wrapU64 (tesDays t) * 86400 + t.hour * 3600 + t.minute * 60 + t.second) % 2 ^ 64

/-- `fn to_epoch_nanos(&self) -> u128`: the `u128` arithmetic cannot wrap
(`to_epoch_secs < 2^64`, so the total is below `2^64 * 10^9 + 10^9 < 2^127`). -/
def to_epoch_nanos (t : NanoTime) : Nat :=
  to_epoch_secs t * 1000000000 + t.nanosecond

/-- `fn to_epoch_ms(&self) -> u64`: `to_epoch_secs * 1000` is `u64`
multiplication, so the result wraps modulo `2^64`. -/
def to_epoch_ms (t : NanoTime) : Nat :=
  (to_epoch_secs t * 1000 + t.nanosecond / 1000000) % 2 ^ 64

/-- `fn to_epoch_us(&self) -> u128`: cannot wrap (below `2^127`). -/
def to_epoch_us (t : NanoTime) : Nat :=
  to_epoch_secs t * 1000000 + microsecond t

/-- `fn diff_secs(&self, other) -> i64`:
`self.to_epoch_secs() as i64 - other.to_epoch_secs() as i64` (the `i64`
subtraction wraps in release mode). -/
def diff_secs (a b : NanoTime) : Int :=
  wrapI64 (toI64 (to_epoch_secs a) - toI64 (to_epoch_secs b))

/-- `fn diff_nanos(&self, other) -> i128`. -/
def diff_nanos (a b : NanoTime) : Int :=
  wrapI128 (toI128 (to_epoch_nanos a) - toI128 (to_epoch_nanos b))

/-- `fn diff_ms(&self, other) -> i64`. -/
def diff_ms (a b : NanoTime) : Int :=
  wrapI64 (toI64 (to_epoch_ms a) - toI64 (to_epoch_ms b))

/-- `fn diff_us(&self, other) -> i128`. -/
def diff_us (a b : NanoTime) : Int :=
  wrapI128 (toI128 (to_epoch_us a) - toI128 (to_epoch_us b))

/-- `fn date(&self) -> String`: `format!("{:04}-{:02}-{:02}", year, month, day)`. -/
def date (t : NanoTime) : String :=
  padZ 4 t.year ++ "-" ++ padZ 2 t.month ++ "-" ++ padZ 2 t.day

/-- `fn datetime_fmt(&self, precision: u8) -> String`. -/
def datetime_fmt (t : NanoTime) (precision : Nat) : String :=
  let p := min precision 9
  if p = 0 then
    date t ++ " " ++ padZ 2 t.hour ++ ":" ++ padZ 2 t.minute ++ ":" ++ padZ 2 t.second
  else
    date t ++ " " ++ padZ 2 t.hour ++ ":" ++ padZ 2 t.minute ++ ":" ++ padZ 2 t.second
      ++ "." ++ takeFirst (padZ 9 t.nanosecond) p

/-- `fn relative_to(&self, other) -> String`. -/
def relative_to (a b : NanoTime) : String :=
  let self_secs := to_epoch_secs a
  let other_secs := to_epoch_secs b
  let diff := if self_secs ≤ other_secs then other_secs - self_secs else self_secs - other_secs
  let past := self_secs ≤ other_secs
  if diff = 0 then "just now"
  else
    let label :=
      if diff ≤ 59 then fmtNat diff ++ "s"
      else if diff ≤ 3599 then fmtNat (diff / 60) ++ "m"
      else if diff ≤ 86399 then fmtNat (diff / 3600) ++ "h"
      else fmtNat (diff / 86400) ++ "d"
    if past then label ++ " ago" else "in " ++ label

end NanoTime

/-! ### Specification-side predicates (from the spec's words, §3)

`Valid` is the invariant claimed for every live instance: all field range
constraints, including day-in-month.  `ltLex` is the lexicographic strict
order over (year, month, day, hour, minute, second, nanosecond) that the
Rust `derive(PartialOrd, Ord)` produces. -/

def Valid (t : NanoTime) : Prop :=
  1 ≤ t.month ∧ t.month ≤ 12 ∧
  1 ≤ t.day ∧ t.day ≤ days_in_month t.year t.month ∧
  t.hour ≤ 23 ∧ t.minute ≤ 59 ∧ t.second ≤ 59 ∧ t.nanosecond ≤ 999999999

instance (t : NanoTime) : Decidable (Valid t) := by
  unfold Valid; infer_instance

def ltLex (a b : NanoTime) : Prop :=
  a.year < b.year ∨ (a.year = b.year ∧
    (a.month < b.month ∨ (a.month = b.month ∧
      (a.day < b.day ∨ (a.day = b.day ∧
        (a.hour < b.hour ∨ (a.hour = b.hour ∧
          (a.minute < b.minute ∨ (a.minute = b.minute ∧
            (a.second < b.second ∨ (a.second = b.second ∧
              a.nanosecond < b.nanosecond)))))))))))

instance (a b : NanoTime) : Decidable (ltLex a b) := by
  unfold ltLex; infer_instance

/-! ### Analysis helpers (subexpressions of the conversion pair, named) -/

/-- Day count from the start of an era to the start of year-of-era `r`
(`365 * yoe + yoe / 4 - yoe / 100` in both conversion directions). -/
def yoeDays (r : Nat) : Nat := 365 * r + r / 4 - r / 100

/-- Length in days of March-based year-of-era `r` (March of year `r` through
February of year `r + 1`). -/
def yearLen (r : Nat) : Nat := if is_leap_year (r + 1) then 366 else 365

/-- The inner expression of the year-of-era formula. -/
def yoeNum (doe : Nat) : Nat := doe - doe / 1460 + doe / 36524 - doe / 146096

/-- The year-of-era formula `(doe - doe/1460 + doe/36524 - doe/146096) / 365`. -/
def yoeOf (doe : Nat) : Nat := yoeNum doe / 365

/-- Day offset of month proxy `k` within a March-based year
(`(153 * mp + 2) / 5` in both conversion directions). -/
def mpOff (k : Nat) : Nat := (153 * k + 2) / 5

/-- Month proxy of a field record, as recomputed by `to_epoch_secs`. -/
def mpOf (t : NanoTime) : Nat := if t.month > 2 then t.month - 3 else t.month + 9

/-- Per-year-of-era checks for the year-of-era formula: both segment
endpoints of year `r` map to `r`, and consecutive `yoeDays` values differ by
`yearLen` (checked for `r < 400`; `r = 399` is the last year of the era). -/
def eraYearOk (r : Nat) : Bool :=
  (yoeOf (yoeDays r) == r) && (yoeOf (yoeDays r + yearLen r - 1) == r) &&
  (yoeDays r + yearLen r ≤ 146097 : Bool) &&
  (r == 399 || yoeDays (r + 1) == yoeDays r + yearLen r)

/-- Per-day-of-year checks for the month-proxy formula (`doy ≤ 365`). -/
def doyOk (doy : Nat) : Bool :=
  let mp := (5 * doy + 2) / 153
  (mp ≤ 11 : Bool) && (mpOff mp ≤ doy : Bool) && (mp == 11 || doy < mpOff (mp + 1))

/-- March-based year of a field record (`Nat` version of `tesY`, total for
`year ≥ 1`). -/
def marchY (t : NanoTime) : Nat := if t.month ≤ 2 then t.year - 1 else t.year

/-- Day count from 0000-03-01 to the start of March-based year `Y`. -/
def yearStart (Y : Nat) : Nat := Y / 400 * 146097 + yoeDays (Y % 400)

/-- The (non-negative) day count that `to_epoch_secs` computes for a record
with `year ≥ 1970`, before the epoch shift: `yearStart` of the March-based
year plus the day of year. -/
def natDays (t : NanoTime) : Nat := yearStart (marchY t) + NanoTime.tesDoy t

/-! ## Theorems -/

/-! ### Soundness of the range checker -/

theorem checkRange_sound (P : Nat → Bool) :
    ∀ fuel lo n, checkRange P fuel lo n = true → ∀ i, i < n → P (lo + i) = true := by
  intro fuel
  induction fuel with
  | zero => intro lo n h; simp [checkRange] at h
  | succ f ih =>
    intro lo n h i hi
    rw [checkRange] at h
    by_cases h0 : n = 0
    · omega
    by_cases h1 : n = 1
    · subst h1
      have : i = 0 := by omega
      subst this
      simpa [h0] using h
    simp only [if_neg h0, if_neg h1, Bool.and_eq_true] at h
    by_cases hc : i < n / 2
    · exact ih lo (n / 2) h.1 i hc
    · have h2 := ih (lo + n / 2) (n - n / 2) h.2 (i - n / 2) (by omega)
      have he : lo + n / 2 + (i - n / 2) = lo + i := by omega
      rwa [he] at h2

/-! ### The year-of-era formula -/

theorem yoeNum_step (x : Nat) (h : x < 146096) : yoeNum x ≤ yoeNum (x + 1) := by
  unfold yoeNum
  omega

theorem yoeNum_mono : ∀ a b : Nat, a ≤ b → b ≤ 146096 → yoeNum a ≤ yoeNum b := by
  intro a b
  induction b with
  | zero =>
    intro hab _
    have : a = 0 := by omega
    subst this
    exact Nat.le_refl _
  | succ n ih =>
    intro hab hb
    rcases Nat.lt_or_ge a (n + 1) with hlt | hge
    · exact Nat.le_trans (ih (by omega) (by omega)) (yoeNum_step n (by omega))
    · have : a = n + 1 := by omega
      subst this
      exact Nat.le_refl _

theorem yoeOf_mono (a b : Nat) (hab : a ≤ b) (hb : b ≤ 146096) : yoeOf a ≤ yoeOf b :=
  Nat.div_le_div_right (yoeNum_mono a b hab hb)

set_option maxRecDepth 2000 in
theorem eraYear_sweep : checkRange eraYearOk 12 0 400 = true := by decide

theorem eraYearOk_spec (r : Nat) (hr : r < 400) :
    yoeOf (yoeDays r) = r ∧ yoeOf (yoeDays r + yearLen r - 1) = r ∧
      yoeDays r + yearLen r ≤ 146097 ∧
      (r < 399 → yoeDays (r + 1) = yoeDays r + yearLen r) := by
  have h := checkRange_sound eraYearOk 12 0 400 eraYear_sweep r hr
  rw [Nat.zero_add] at h
  unfold eraYearOk at h
  simp only [Bool.and_eq_true, Bool.or_eq_true, beq_iff_eq, decide_eq_true_eq] at h
  exact ⟨h.1.1.1, h.1.1.2, h.1.2, fun h399 => by omega⟩

theorem yearLen_cases (r : Nat) : yearLen r = 365 ∨ yearLen r = 366 := by
  unfold yearLen
  split <;> simp

/-- The last segment of the era: `yoeDays 399 + yearLen 399 = 146097`. -/
theorem yoeDays_top : yoeDays 399 + yearLen 399 = 146097 := by decide

/-- Every day of era lies in the year-of-era segment that the formula
computes: this is the exactness of Hinnant's integer-division identity. -/
theorem doe_bracket (doe : Nat) (h : doe < 146097) :
    yoeOf doe ≤ 399 ∧ yoeDays (yoeOf doe) ≤ doe ∧
      doe < yoeDays (yoeOf doe) + yearLen (yoeOf doe) := by
  have hr399 : Nat.findGreatest (fun r => yoeDays r ≤ doe) 399 ≤ 399 :=
    Nat.findGreatest_le 399
  have hlo : yoeDays (Nat.findGreatest (fun r => yoeDays r ≤ doe) 399) ≤ doe := by
    have h0 : yoeDays 0 ≤ doe := by unfold yoeDays; omega
    exact Nat.findGreatest_spec (P := fun r => yoeDays r ≤ doe) (m := 0)
      (Nat.zero_le 399) h0
  have hspec := eraYearOk_spec (Nat.findGreatest (fun r => yoeDays r ≤ doe) 399)
    (by omega)
  have hhi : doe < yoeDays (Nat.findGreatest (fun r => yoeDays r ≤ doe) 399) +
      yearLen (Nat.findGreatest (fun r => yoeDays r ≤ doe) 399) := by
    rcases Nat.lt_or_ge (Nat.findGreatest (fun r => yoeDays r ≤ doe) 399) 399
      with hlt | hge
    · have hnext := hspec.2.2.2 hlt
      have hng : ¬(yoeDays (Nat.findGreatest (fun r => yoeDays r ≤ doe) 399 + 1) ≤ doe) :=
        Nat.findGreatest_is_greatest (P := fun r => yoeDays r ≤ doe) (n := 399)
          (k := Nat.findGreatest (fun r => yoeDays r ≤ doe) 399 + 1)
          (by omega) (by omega)
      omega
    · have h399 : Nat.findGreatest (fun r => yoeDays r ≤ doe) 399 = 399 := by omega
      rw [h399]
      rw [yoeDays_top]
      exact h
  have h1 : yoeOf (yoeDays (Nat.findGreatest (fun r => yoeDays r ≤ doe) 399)) ≤
      yoeOf doe := yoeOf_mono _ _ hlo (by omega)
  have h2 : yoeOf doe ≤ yoeOf (yoeDays (Nat.findGreatest (fun r => yoeDays r ≤ doe) 399) +
      yearLen (Nat.findGreatest (fun r => yoeDays r ≤ doe) 399) - 1) :=
    yoeOf_mono _ _ (by omega) (by omega)
  have heq : yoeOf doe = Nat.findGreatest (fun r => yoeDays r ≤ doe) 399 := by
    rw [hspec.1] at h1
    rw [hspec.2.1] at h2
    omega
  rw [heq]
  exact ⟨hr399, hlo, hhi⟩

/-! ### The month-proxy formula -/

set_option maxRecDepth 2000 in
theorem doy_sweep : checkRange doyOk 10 0 366 = true := by decide

theorem doyOk_spec (doy : Nat) (h : doy ≤ 365) :
    (5 * doy + 2) / 153 ≤ 11 ∧ mpOff ((5 * doy + 2) / 153) ≤ doy ∧
      ((5 * doy + 2) / 153 ≤ 10 → doy < mpOff ((5 * doy + 2) / 153 + 1)) := by
  have hs := checkRange_sound doyOk 10 0 366 doy_sweep doy (by omega)
  rw [Nat.zero_add] at hs
  unfold doyOk at hs
  simp only [Bool.and_eq_true, Bool.or_eq_true, beq_iff_eq, decide_eq_true_eq] at hs
  refine ⟨hs.1.1, hs.1.2, fun h10 => ?_⟩
  rcases hs.2 with h11 | hlt
  · omega
  · exact hlt

/-- Ranges of month and day as functions of the month proxy and day of
year, for any `doy ≤ 365` (day of year, March-based). -/
theorem mp_day_bounds (doy mp : Nat) (hmp : mp ≤ 11) (hlo : mpOff mp ≤ doy)
    (hnext : mp ≤ 10 → doy < mpOff (mp + 1)) (hdoy : doy ≤ 365) :
    1 ≤ (if mp < 10 then mp + 3 else mp - 9) ∧
    (if mp < 10 then mp + 3 else mp - 9) ≤ 12 ∧
    1 ≤ doy - mpOff mp + 1 ∧ doy - mpOff mp + 1 ≤ 31 ∧
    ((if mp < 10 then mp + 3 else mp - 9) ≤ 2 ↔ 10 ≤ mp) ∧
    (if (if mp < 10 then mp + 3 else mp - 9) > 2
      then (if mp < 10 then mp + 3 else mp - 9) - 3
      else (if mp < 10 then mp + 3 else mp - 9) + 9) = mp := by
  interval_cases mp <;>
    simp only [mpOff] at hlo hnext ⊢ <;> norm_num <;> omega

/-! ### Structure of the forward conversion -/

theorem forward_facts (s : Nat) :
    etdDoe s < 146097 ∧
    etdZ s = etdEra s * 146097 + etdDoe s ∧
    etdYoe s ≤ 399 ∧
    yoeDays (etdYoe s) ≤ etdDoe s ∧
    etdDoe s < yoeDays (etdYoe s) + yearLen (etdYoe s) ∧
    etdDoy s = etdDoe s - yoeDays (etdYoe s) ∧
    etdDoy s < yearLen (etdYoe s) ∧
    etdDoy s ≤ 365 ∧
    etdMp s ≤ 11 ∧
    mpOff (etdMp s) ≤ etdDoy s ∧
    (etdMp s ≤ 10 → etdDoy s < mpOff (etdMp s + 1)) := by
  have hz : etdDoe s < 146097 ∧ etdZ s = etdEra s * 146097 + etdDoe s := by
    unfold etdDoe etdEra
    omega
  have hbr := doe_bracket (etdDoe s) hz.1
  have hyoe : etdYoe s = yoeOf (etdDoe s) := rfl
  rw [← hyoe] at hbr
  have hdoy : etdDoy s = etdDoe s - yoeDays (etdYoe s) := rfl
  have hlen := yearLen_cases (etdYoe s)
  have hdoyLen : etdDoy s < yearLen (etdYoe s) := by omega
  have hdoy365 : etdDoy s ≤ 365 := by omega
  have hmp := doyOk_spec (etdDoy s) hdoy365
  exact ⟨hz.1, hz.2, hbr.1, hbr.2.1, hbr.2.2, hdoy, hdoyLen, hdoy365,
    hmp.1, hmp.2.1, hmp.2.2⟩

/-- Field ranges of the forward conversion, for every `u64` input. -/
theorem forward_fields (s : Nat) :
    1 ≤ etdMonth s ∧ etdMonth s ≤ 12 ∧ 1 ≤ etdDay s ∧ etdDay s ≤ 31 ∧
    (etdMonth s ≤ 2 ↔ 10 ≤ etdMp s) ∧
    (if etdMonth s > 2 then etdMonth s - 3 else etdMonth s + 9) = etdMp s ∧
    etdDay s = etdDoy s - mpOff (etdMp s) + 1 := by
  obtain ⟨-, -, -, -, -, -, -, hdoy365, hmp11, hlo, hnext⟩ := forward_facts s
  have hb := mp_day_bounds (etdDoy s) (etdMp s) hmp11 hlo hnext hdoy365
  have hmonth : etdMonth s = if etdMp s < 10 then etdMp s + 3 else etdMp s - 9 := rfl
  have hday : etdDay s = etdDoy s - mpOff (etdMp s) + 1 := rfl
  rw [hmonth, hday]
  exact ⟨hb.1, hb.2.1, hb.2.2.1, hb.2.2.2.1, hb.2.2.2.2.1, hb.2.2.2.2.2, rfl⟩

/-! ### The round trip: `to_epoch_secs ∘ epoch_to_date = id` on the domain -/

theorem tdiv_coe (m n : Nat) : Int.tdiv (m : Int) (n : Int) = ((m / n : Nat) : Int) := rfl

theorem wrapU64_coe (n : Nat) (h : n < 2 ^ 64) : wrapU64 (n : Int) = n := by
  unfold wrapU64
  omega

/-- On the supported domain the input is small: at most the last second of
year 65535. -/
theorem domain_size (s : Nat) (h : etdYear s ≤ 65535) : s < 2008000000000 := by
  have h1 : etdY s ≤ etdYear s := by
    unfold etdYear
    split <;> omega
  have h2 : etdEra s * 400 ≤ etdY s := by
    unfold etdY
    omega
  have h3 : etdZ s = etdEra s * 146097 + etdDoe s := (forward_facts s).2.1
  have h4 : etdDoe s < 146097 := (forward_facts s).1
  have h5 : etdZ s = s / 86400 + 719468 := rfl
  omega

theorem tesY_eq (s : Nat) (h : etdYear s ≤ 65535) :
    NanoTime.tesY (epoch_to_date s) = (etdY s : Int) := by
  have hyear : (epoch_to_date s).year = etdYear s := by
    show etdYear s % 65536 = etdYear s
    omega
  have hmonth : (epoch_to_date s).month = etdMonth s := rfl
  unfold NanoTime.tesY
  rw [hmonth, hyear]
  unfold etdYear
  by_cases hc : etdMonth s ≤ 2
  · rw [if_pos hc, if_pos hc]
    push_cast
    ring
  · rw [if_neg hc, if_neg hc]

theorem tesEra_eq (s : Nat) (h : etdYear s ≤ 65535) :
    NanoTime.tesEra (epoch_to_date s) = (etdEra s : Int) := by
  have tyq : etdY s / 400 = etdEra s := by
    have h399 : etdYoe s ≤ 399 := (forward_facts s).2.2.1
    unfold etdY
    omega
  unfold NanoTime.tesEra
  rw [tesY_eq s h, if_pos (Int.natCast_nonneg _)]
  rw [← tyq]
  exact tdiv_coe (etdY s) 400

theorem tesYoe_eq (s : Nat) (h : etdYear s ≤ 65535) :
    NanoTime.tesYoe (epoch_to_date s) = etdYoe s := by
  have he : etdY s = etdYoe s + etdEra s * 400 := rfl
  unfold NanoTime.tesYoe
  rw [tesY_eq s h, tesEra_eq s h, he]
  push_cast
  simp

theorem tesDoy_eq (s : Nat) (h : etdYear s ≤ 65535) :
    NanoTime.tesDoy (epoch_to_date s) = etdDoy s := by
  obtain ⟨hm1, hm12, hd1, hd31, hm2iff, hmpof, hdayeq⟩ := forward_fields s
  have hmplo : mpOff (etdMp s) ≤ etdDoy s := (forward_facts s).2.2.2.2.2.2.2.2.2.1
  have hmonth : (epoch_to_date s).month = etdMonth s := rfl
  have hday : (epoch_to_date s).day = etdDay s := rfl
  unfold NanoTime.tesDoy
  rw [hmonth, hday, hmpof, hdayeq]
  have hmo : mpOff (etdMp s) = (153 * etdMp s + 2) / 5 := rfl
  omega

theorem tesDoe_eq (s : Nat) (h : etdYear s ≤ 65535) :
    NanoTime.tesDoe (epoch_to_date s) = etdDoe s := by
  have hylo : yoeDays (etdYoe s) ≤ etdDoe s := (forward_facts s).2.2.2.1
  have hdoyeq : etdDoy s = etdDoe s - yoeDays (etdYoe s) := (forward_facts s).2.2.2.2.2.1
  unfold NanoTime.tesDoe
  rw [tesYoe_eq s h, tesDoy_eq s h]
  have hyd : yoeDays (etdYoe s) = 365 * etdYoe s + etdYoe s / 4 - etdYoe s / 100 := rfl
  omega

theorem tesDays_eq (s : Nat) (h : etdYear s ≤ 65535) :
    NanoTime.tesDays (epoch_to_date s) = ((s / 86400 : Nat) : Int) := by
  have hzsplit : etdZ s = etdEra s * 146097 + etdDoe s := (forward_facts s).2.1
  have hz : etdZ s = s / 86400 + 719468 := rfl
  unfold NanoTime.tesDays
  rw [tesEra_eq s h, tesDoe_eq s h]
  omega

theorem roundtrip_aux (s : Nat) (h : etdYear s ≤ 65535) :
    NanoTime.to_epoch_secs (epoch_to_date s) = s := by
  have hsize := domain_size s h
  unfold NanoTime.to_epoch_secs
  rw [tesDays_eq s h, wrapU64_coe _ (by omega)]
  have hh : (epoch_to_date s).hour = s % 86400 / 3600 := rfl
  have hmi : (epoch_to_date s).minute = s % 86400 % 3600 / 60 := rfl
  have hse : (epoch_to_date s).second = s % 86400 % 60 := rfl
  rw [hh, hmi, hse]
  omega

/-! ### Day-in-month validity of the forward conversion (domain inputs) -/

theorem is_leap_year_congr (a b : Nat) (h : a % 400 = b % 400) :
    is_leap_year a = is_leap_year b := by
  unfold is_leap_year
  have h4 : a % 4 = b % 4 := by omega
  have h100 : a % 100 = b % 100 := by omega
  rw [h4, h100, h]

/-- Day-in-month bound for the eleven 31/30-day month proxies (months other
than February), independent of the year. -/
theorem day_in_month_other (y doy mp : Nat) (hmp : mp ≤ 10)
    (hmplo : mpOff mp ≤ doy) (hnext : doy < mpOff (mp + 1)) :
    doy - mpOff mp + 1 ≤ days_in_month y (if mp < 10 then mp + 3 else mp - 9) := by
  interval_cases mp
  · rw [show (if (0 : Nat) < 10 then 0 + 3 else 0 - 9) = 3 from rfl,
      show days_in_month y 3 = 31 from rfl]
    simp only [mpOff] at hmplo hnext ⊢
    omega
  · rw [show (if (1 : Nat) < 10 then 1 + 3 else 1 - 9) = 4 from rfl,
      show days_in_month y 4 = 30 from rfl]
    simp only [mpOff] at hmplo hnext ⊢
    omega
  · rw [show (if (2 : Nat) < 10 then 2 + 3 else 2 - 9) = 5 from rfl,
      show days_in_month y 5 = 31 from rfl]
    simp only [mpOff] at hmplo hnext ⊢
    omega
  · rw [show (if (3 : Nat) < 10 then 3 + 3 else 3 - 9) = 6 from rfl,
      show days_in_month y 6 = 30 from rfl]
    simp only [mpOff] at hmplo hnext ⊢
    omega
  · rw [show (if (4 : Nat) < 10 then 4 + 3 else 4 - 9) = 7 from rfl,
      show days_in_month y 7 = 31 from rfl]
    simp only [mpOff] at hmplo hnext ⊢
    omega
  · rw [show (if (5 : Nat) < 10 then 5 + 3 else 5 - 9) = 8 from rfl,
      show days_in_month y 8 = 31 from rfl]
    simp only [mpOff] at hmplo hnext ⊢
    omega
  · rw [show (if (6 : Nat) < 10 then 6 + 3 else 6 - 9) = 9 from rfl,
      show days_in_month y 9 = 30 from rfl]
    simp only [mpOff] at hmplo hnext ⊢
    omega
  · rw [show (if (7 : Nat) < 10 then 7 + 3 else 7 - 9) = 10 from rfl,
      show days_in_month y 10 = 31 from rfl]
    simp only [mpOff] at hmplo hnext ⊢
    omega
  · rw [show (if (8 : Nat) < 10 then 8 + 3 else 8 - 9) = 11 from rfl,
      show days_in_month y 11 = 30 from rfl]
    simp only [mpOff] at hmplo hnext ⊢
    omega
  · rw [show (if (9 : Nat) < 10 then 9 + 3 else 9 - 9) = 12 from rfl,
      show days_in_month y 12 = 31 from rfl]
    simp only [mpOff] at hmplo hnext ⊢
    omega
  · rw [show (if (10 : Nat) < 10 then 10 + 3 else 10 - 9) = 1 from rfl,
      show days_in_month y 1 = 31 from rfl]
    simp only [mpOff] at hmplo hnext ⊢
    omega

/-- Day-in-month bound for February (month proxy 11): the day stays within
28/29 according to the civil leap year. -/
theorem day_in_month_feb (y doy L : Nat) (hmplo : 337 ≤ doy)
    (hlen : doy < L) (hL : L = if is_leap_year y then 366 else 365) :
    doy - 337 + 1 ≤ days_in_month y 2 := by
  rw [show days_in_month y 2 = if is_leap_year y then 29 else 28 from rfl]
  by_cases hlp : is_leap_year y = true
  · rw [if_pos hlp]
    rw [if_pos hlp] at hL
    omega
  · rw [if_neg hlp]
    rw [if_neg hlp] at hL
    omega

/-- In-domain forward conversion respects the day-in-month bound (the only
subtle case is February 29, which requires the leap-year linkage between the
year of era and the civil year). -/
theorem forward_day_in_month (s : Nat) (h : etdYear s ≤ 65535) :
    etdDay s ≤ days_in_month ((epoch_to_date s).year) (etdMonth s) := by
  obtain ⟨hdoe, hzsplit, hyoe399, hylo, hyhi, hdoyeq, hdoylen, hdoy365,
    hmp11, hmplo, hmpnext⟩ := forward_facts s
  obtain ⟨hm1, hm12, hd1, hd31, hm2iff, hmpof, hdayeq⟩ := forward_fields s
  have hyear : (epoch_to_date s).year = etdYear s := by
    show etdYear s % 65536 = etdYear s
    omega
  rw [hyear]
  have hmonth : etdMonth s = if etdMp s < 10 then etdMp s + 3 else etdMp s - 9 := rfl
  by_cases hc : etdMp s = 11
  · have hmf : etdMonth s = 2 := by
      rw [hmonth, hc]
      decide
    have hleap : is_leap_year (etdYear s) = is_leap_year (etdYoe s + 1) := by
      have hyf : etdYear s = etdY s + 1 := by
        unfold etdYear
        rw [if_pos (by omega : etdMonth s ≤ 2)]
      apply is_leap_year_congr
      have he : etdY s = etdYoe s + etdEra s * 400 := rfl
      omega
    rw [hmf, hdayeq, hc]
    rw [show mpOff 11 = 337 from rfl]
    rw [hc] at hmplo
    rw [show mpOff 11 = 337 from rfl] at hmplo
    exact day_in_month_feb (etdYear s) (etdDoy s) (yearLen (etdYoe s)) hmplo hdoylen
      (by unfold yearLen; rw [hleap])
  · have hmp10 : etdMp s ≤ 10 := by omega
    rw [hdayeq, hmonth]
    exact day_in_month_other (etdYear s) (etdDoy s) (etdMp s) hmp10 hmplo (hmpnext hmp10)

/-! ### Validity of converter-produced and constructed instances -/

theorem epoch_to_date_valid (s : Nat) (h : etdYear s ≤ 65535) :
    Valid (epoch_to_date s) := by
  obtain ⟨hm1, hm12, hd1, hd31, -, -, -⟩ := forward_fields s
  have hdim := forward_day_in_month s h
  unfold Valid
  refine ⟨hm1, hm12, hd1, hdim, ?_, ?_, ?_, ?_⟩
  · show s % 86400 / 3600 ≤ 23
    omega
  · show s % 86400 % 3600 / 60 ≤ 59
    omega
  · show s % 86400 % 60 ≤ 59
    omega
  · show 0 ≤ 999999999
    omega

theorem valid_with_nanos (t : NanoTime) (ns : Nat) (hv : Valid t)
    (hns : ns ≤ 999999999) :
    Valid ⟨t.year, t.month, t.day, t.hour, t.minute, t.second, ns⟩ := by
  unfold Valid at hv ⊢
  dsimp only
  exact ⟨hv.1, hv.2.1, hv.2.2.1, hv.2.2.2.1, hv.2.2.2.2.1, hv.2.2.2.2.2.1,
    hv.2.2.2.2.2.2.1, hns⟩

theorem new_some_valid (y m d h mi s ns : Nat) (t : NanoTime)
    (he : NanoTime.new y m d h mi s ns = some t) : Valid t := by
  unfold NanoTime.new at he
  split_ifs at he with h1 h2 h3 h4 h5 h6
  injection he with he
  subst he
  unfold Valid
  dsimp only
  refine ⟨by omega, by omega, by omega, by omega, by omega, by omega, by omega, by omega⟩

theorem new_some_fields (y m d h mi s ns : Nat)
    (hm : 1 ≤ m ∧ m ≤ 12) (hd : 1 ≤ d ∧ d ≤ days_in_month y m)
    (hh : h ≤ 23) (hmi : mi ≤ 59) (hs : s ≤ 59) (hns : ns ≤ 999999999) :
    NanoTime.new y m d h mi s ns = some ⟨y, m, d, h, mi, s, ns⟩ := by
  unfold NanoTime.new
  split_ifs with h1 h2 h3 h4 h5 h6 <;> first | rfl | omega

theorem new_none_iff (y m d h mi s ns : Nat) :
    NanoTime.new y m d h mi s ns = none ↔
      (m < 1 ∨ 12 < m ∨ d < 1 ∨ days_in_month y m < d ∨ 23 < h ∨ 59 < mi ∨
        59 < s ∨ 999999999 < ns) := by
  unfold NanoTime.new
  split_ifs with h1 h2 h3 h4 h5 h6 <;> simp <;> omega

/-! ## Claim theorems -/

/-- Claim C1: for every epoch-seconds value `s` in the supported domain
(non-negative `s` whose proleptic-Gregorian year is at most 65535),
converting forward to calendar fields and back yields `s` exactly:
`NanoTime::from_epoch(s).to_epoch_secs() == s`. -/
theorem claim_C1 (s : Nat) (h : inDomain s) :
    NanoTime.to_epoch_secs (NanoTime.from_epoch s) = s :=
  roundtrip_aux s h

theorem claim_C1_witness :
    inDomain 1000000000 ∧
      NanoTime.to_epoch_secs (NanoTime.from_epoch 1000000000) = 1000000000 :=
  ⟨by decide, claim_C1 1000000000 (by decide)⟩

/-- Claim C2: for every epoch-seconds value `s` in the supported domain, the
fields produced by `NanoTime::from_epoch(s)` satisfy `hour ≤ 23`,
`minute ≤ 59`, `second ≤ 59`, `1 ≤ month ≤ 12`, `1 ≤ day ≤ 31`, and
`nanosecond = 0`. -/
theorem claim_C2 (s : Nat) (h : inDomain s) :
    (NanoTime.from_epoch s).hour ≤ 23 ∧ (NanoTime.from_epoch s).minute ≤ 59 ∧
    (NanoTime.from_epoch s).second ≤ 59 ∧
    1 ≤ (NanoTime.from_epoch s).month ∧ (NanoTime.from_epoch s).month ≤ 12 ∧
    1 ≤ (NanoTime.from_epoch s).day ∧ (NanoTime.from_epoch s).day ≤ 31 ∧
    (NanoTime.from_epoch s).nanosecond = 0 := by
  obtain ⟨hm1, hm12, hd1, hd31, -, -, -⟩ := forward_fields s
  refine ⟨?_, ?_, ?_, hm1, hm12, hd1, hd31, rfl⟩
  · show s % 86400 / 3600 ≤ 23
    omega
  · show s % 86400 % 3600 / 60 ≤ 59
    omega
  · show s % 86400 % 60 ≤ 59
    omega

theorem claim_C2_witness :
    inDomain 951782400 ∧
      ((NanoTime.from_epoch 951782400).hour ≤ 23 ∧
       (NanoTime.from_epoch 951782400).minute ≤ 59 ∧
       (NanoTime.from_epoch 951782400).second ≤ 59 ∧
       1 ≤ (NanoTime.from_epoch 951782400).month ∧
       (NanoTime.from_epoch 951782400).month ≤ 12 ∧
       1 ≤ (NanoTime.from_epoch 951782400).day ∧
       (NanoTime.from_epoch 951782400).day ≤ 31 ∧
       (NanoTime.from_epoch 951782400).nanosecond = 0) :=
  ⟨by decide, claim_C2 951782400 (by decide)⟩

/-- Claim C3 counterexample: the claim quantifies over every instance
obtainable from the public API, with no domain restriction on the epoch
constructors.  At `s = 2065912473600` (12:00 a.m. of 67436-02-29, a leap day
of a year above 65535) the `u16` year cast wraps the year to 1900 — not a
leap year — so the instance returned by `from_epoch` violates the
day-in-month constraint: its fields are year 1900, month 2, day 29, while
`days_in_month(1900, 2) = 28`. -/
theorem claim_C3_counterexample : ¬ Valid (NanoTime.from_epoch 2065912473600) := by
  decide

/-- Claim C3 (amended): every instance obtained from the validating
constructor, from the epoch constructors applied to inputs whose
whole-seconds part lies in the supported domain, from `now_utc` when the
UTC clock reading is in the supported domain, or from a successful local
clock reading with valid fields, satisfies all field range constraints.
(The local-clock constructor `now` returns an all-zero sentinel when the
clock fails, which violates the constraints — last conjunct.) -/
theorem claim_C3 :
    (∀ y m d h mi s ns t, NanoTime.new y m d h mi s ns = some t → Valid t) ∧
    (∀ s, inDomain s → Valid (NanoTime.from_epoch s)) ∧
    (∀ ms, inDomain (ms / 1000) → Valid (NanoTime.from_epoch_ms ms)) ∧
    (∀ us, inDomain (us / 1000000) → Valid (NanoTime.from_epoch_us us)) ∧
    (∀ ns, inDomain (ns / 1000000000) → Valid (NanoTime.from_epoch_nanos ns)) ∧
    (∀ secs nanos, inDomain secs → nanos ≤ 999999999 →
      Valid (NanoTime.now_utc secs nanos)) ∧
    (∀ r, Valid r → Valid (NanoTime.platform_now (some r))) ∧
    ¬ Valid (NanoTime.platform_now none) := by
  refine ⟨fun y m d h mi s ns t he => new_some_valid y m d h mi s ns t he,
    fun s h => epoch_to_date_valid s h,
    fun ms h => ?_, fun us h => ?_, fun ns h => ?_, fun secs nanos h hn => ?_,
    fun r hr => hr, by decide⟩
  · exact valid_with_nanos (epoch_to_date (ms / 1000)) (ms % 1000 * 1000000)
      (epoch_to_date_valid _ h) (by omega)
  · exact valid_with_nanos (epoch_to_date (us / 1000000)) (us % 1000000 * 1000)
      (epoch_to_date_valid _ h) (by omega)
  · exact valid_with_nanos (epoch_to_date (ns / 1000000000)) (ns % 1000000000)
      (epoch_to_date_valid _ h) (by omega)
  · exact valid_with_nanos (epoch_to_date secs) nanos
      (epoch_to_date_valid _ h) hn

theorem claim_C3_witness :
    Valid (NanoTime.from_epoch_ms 1000000000042) ∧ Valid (NanoTime.from_epoch 0) :=
  ⟨claim_C3.2.2.1 1000000000042 (by decide), claim_C3.2.1 0 (by decide)⟩

/-- Claim C4: `NanoTime::new` returns `None` exactly when at least one field
is out of range (any single out-of-range field forces rejection), and when
every field is in range it returns `Some` of an instance holding exactly
those fields.  Field arguments are bounded by their Rust integer widths. -/
theorem claim_C4 (y m d h mi s ns : Nat) (hy : y ≤ 65535) (hm : m ≤ 255)
    (hd : d ≤ 255) (hh : h ≤ 255) (hmi : mi ≤ 255) (hs : s ≤ 255)
    (hns : ns ≤ 4294967295) :
    (NanoTime.new y m d h mi s ns = none ↔
      (m < 1 ∨ 12 < m ∨ d < 1 ∨ days_in_month y m < d ∨ 23 < h ∨ 59 < mi ∨
        59 < s ∨ 999999999 < ns)) ∧
    ((1 ≤ m ∧ m ≤ 12 ∧ 1 ≤ d ∧ d ≤ days_in_month y m ∧ h ≤ 23 ∧ mi ≤ 59 ∧
        s ≤ 59 ∧ ns ≤ 999999999) →
      NanoTime.new y m d h mi s ns = some ⟨y, m, d, h, mi, s, ns⟩) :=
  ⟨new_none_iff y m d h mi s ns,
   fun hr => new_some_fields y m d h mi s ns ⟨hr.1, hr.2.1⟩ ⟨hr.2.2.1, hr.2.2.2.1⟩
     hr.2.2.2.2.1 hr.2.2.2.2.2.1 hr.2.2.2.2.2.2.1 hr.2.2.2.2.2.2.2⟩

theorem claim_C4_witness :
    NanoTime.new 2025 2 29 0 0 0 0 = none ∧
      NanoTime.new 2024 2 29 23 59 59 999999999 =
        some ⟨2024, 2, 29, 23, 59, 59, 999999999⟩ :=
  ⟨(claim_C4 2025 2 29 0 0 0 0 (by decide) (by decide) (by decide) (by decide)
      (by decide) (by decide) (by decide)).1.mpr (by decide),
   (claim_C4 2024 2 29 23 59 59 999999999 (by decide) (by decide) (by decide)
      (by decide) (by decide) (by decide) (by decide)).2 (by decide)⟩

/-- Claim C5: for every field tuple satisfying the validity constraints,
constructing via `new` and reading back every accessor yields the original
values, and `millisecond() = nanosecond / 1_000_000`,
`microsecond() = nanosecond / 1_000`. -/
theorem claim_C5 (y m d h mi s ns : Nat)
    (hm : 1 ≤ m ∧ m ≤ 12) (hd : 1 ≤ d ∧ d ≤ days_in_month y m)
    (hh : h ≤ 23) (hmi : mi ≤ 59) (hs : s ≤ 59) (hns : ns ≤ 999999999) :
    ∃ t, NanoTime.new y m d h mi s ns = some t ∧
      t.year = y ∧ t.month = m ∧ t.day = d ∧ t.hour = h ∧ t.minute = mi ∧
      t.second = s ∧ t.nanosecond = ns ∧
      NanoTime.millisecond t = ns / 1000000 ∧
      NanoTime.microsecond t = ns / 1000 :=
  ⟨⟨y, m, d, h, mi, s, ns⟩,
   new_some_fields y m d h mi s ns hm hd hh hmi hs hns,
   rfl, rfl, rfl, rfl, rfl, rfl, rfl, rfl, rfl⟩

theorem claim_C5_witness :
    ∃ t, NanoTime.new 2026 2 22 14 30 5 123456789 = some t ∧
      t.year = 2026 ∧ t.month = 2 ∧ t.day = 22 ∧ t.hour = 14 ∧ t.minute = 30 ∧
      t.second = 5 ∧ t.nanosecond = 123456789 ∧
      NanoTime.millisecond t = 123456789 / 1000000 ∧
      NanoTime.microsecond t = 123456789 / 1000 :=
  claim_C5 2026 2 22 14 30 5 123456789 (by decide) (by decide) (by decide)
    (by decide) (by decide) (by decide)

/-! ### Chronological order of valid field records (1970 ≤ year ≤ 65535) -/

theorem yearStart_step (Y : Nat) :
    yearStart (Y + 1) = yearStart Y + yearLen (Y % 400) := by
  unfold yearStart
  by_cases hr : Y % 400 < 399
  · have hq : (Y + 1) / 400 = Y / 400 := by omega
    have hm : (Y + 1) % 400 = Y % 400 + 1 := by omega
    rw [hq, hm, (eraYearOk_spec (Y % 400) (by omega)).2.2.2 hr]
    omega
  · have hr399 : Y % 400 = 399 := by omega
    have hq : (Y + 1) / 400 = Y / 400 + 1 := by omega
    have hm : (Y + 1) % 400 = 0 := by omega
    rw [hq, hm, hr399]
    have h0 : yoeDays 0 = 0 := by decide
    have h399 : yoeDays 399 = 145731 := by decide
    have hl : yearLen 399 = 366 := by decide
    omega

theorem yearStart_add (k Y : Nat) : yearStart Y + 365 * k ≤ yearStart (Y + k) := by
  induction k with
  | zero => simp
  | succ n ih =>
    have hstep := yearStart_step (Y + n)
    have hlen := yearLen_cases ((Y + n) % 400)
    have : Y + (n + 1) = Y + n + 1 := by omega
    rw [this, hstep]
    omega

theorem yearStart_mono (a b : Nat) (h : a ≤ b) : yearStart a ≤ yearStart b := by
  have := yearStart_add (b - a) a
  have hab : a + (b - a) = b := by omega
  rw [hab] at this
  omega

theorem mpOff_mono (j k : Nat) (h : j ≤ k) : mpOff j ≤ mpOff k :=
  Nat.div_le_div_right (by omega)

theorem days_in_month_le31 (y m : Nat) : days_in_month y m ≤ 31 := by
  unfold days_in_month
  rcases m with _ | _ | _ | _ | _ | _ | _ | _ | _ | _ | _ | _ | _ | m <;>
    simp <;> split <;> omega

/-- The day-of-year recomputed by `to_epoch_secs` from a valid record:
basic shape and bounds. -/
theorem valid_doy_basic (t : NanoTime) (hv : Valid t) :
    NanoTime.tesDoy t = mpOff (mpOf t) + t.day - 1 ∧
    mpOf t ≤ 11 ∧ mpOff (mpOf t) ≤ NanoTime.tesDoy t ∧
    (t.month ≤ 2 ↔ 10 ≤ mpOf t) := by
  obtain ⟨hm1, hm12, hd1, hd31u, hh, hmi, hs, hns⟩ := hv
  have heq : NanoTime.tesDoy t = mpOff (mpOf t) + t.day - 1 := rfl
  have hd31 : t.day ≤ 31 := le_trans hd31u (days_in_month_le31 _ _)
  unfold mpOf at *
  refine ⟨heq, ?_, ?_, ?_⟩ <;> split_ifs with hc <;> first | omega | (rw [heq]; split_ifs <;> omega)

/-- Upper bound: the day of year of a valid record stays inside its
March-based year (`< yearLen`), via the leap linkage for February. -/
theorem valid_doy_len (t : NanoTime) (hv : Valid t) (hy : 1 ≤ t.year) :
    NanoTime.tesDoy t < yearLen (marchY t % 400) := by
  obtain ⟨hm1, hm12, hd1, hd31u, hh, hmi, hs, hns⟩ := hv
  have heq : NanoTime.tesDoy t = mpOff (mpOf t) + t.day - 1 := rfl
  have hlen := yearLen_cases (marchY t % 400)
  by_cases hc : t.month = 2
  · -- February
    have hmp : mpOf t = 11 := by
      unfold mpOf
      rw [hc]
      decide
    have hoff : mpOff 11 = 337 := by decide
    have hmar : marchY t = t.year - 1 := by
      unfold marchY
      rw [if_pos (by omega)]
    have hleap : is_leap_year (marchY t % 400 + 1) = is_leap_year t.year := by
      apply is_leap_year_congr
      omega
    have hdm : days_in_month t.year 2 = if is_leap_year t.year then 29 else 28 := rfl
    rw [hc, hdm] at hd31u
    have hyl : yearLen (marchY t % 400) = if is_leap_year t.year then 366 else 365 := by
      unfold yearLen
      rw [hleap]
    rw [heq, hmp, hoff, hyl]
    split_ifs with hlp
    · rw [if_pos hlp] at hd31u
      omega
    · rw [if_neg hlp] at hd31u
      omega
  · -- any other month: doy ≤ 336 < 365
    have hd31 : t.day ≤ 31 := le_trans hd31u (days_in_month_le31 _ _)
    have hmp10 : mpOf t ≤ 10 := by
      unfold mpOf
      split_ifs <;> omega
    have hoff10 : mpOff (mpOf t) ≤ mpOff 10 := mpOff_mono _ _ hmp10
    have h306 : mpOff 10 = 306 := by decide
    rw [heq]
    omega

/-- Within one March-based year, the day of year of a valid record stays
below the next month's offset. -/
theorem valid_doy_next (t : NanoTime) (hv : Valid t) :
    NanoTime.tesDoy t < mpOff (mpOf t + 1) := by
  obtain ⟨hm1, hm12, hd1, hd31u, -, -, -, -⟩ := hv
  obtain ⟨y, m, d, hh', mi', s', ns'⟩ := t
  dsimp only at *
  have heq : NanoTime.tesDoy ⟨y, m, d, hh', mi', s', ns'⟩
      = mpOff (mpOf ⟨y, m, d, hh', mi', s', ns'⟩) + d - 1 := rfl
  rw [heq]
  interval_cases m
  · have hdm : days_in_month y 1 = 31 := rfl
    have h1 : mpOff (mpOf ⟨y, 1, d, hh', mi', s', ns'⟩) = 306 := by norm_num [mpOf, mpOff]
    have h2 : mpOff (mpOf ⟨y, 1, d, hh', mi', s', ns'⟩ + 1) = 337 := by norm_num [mpOf, mpOff]
    omega
  · have hdm : days_in_month y 2 = if is_leap_year y then 29 else 28 := rfl
    have h1 : mpOff (mpOf ⟨y, 2, d, hh', mi', s', ns'⟩) = 337 := by norm_num [mpOf, mpOff]
    have h2 : mpOff (mpOf ⟨y, 2, d, hh', mi', s', ns'⟩ + 1) = 367 := by norm_num [mpOf, mpOff]
    rw [hdm] at hd31u
    split at hd31u <;> omega
  · have hdm : days_in_month y 3 = 31 := rfl
    have h1 : mpOff (mpOf ⟨y, 3, d, hh', mi', s', ns'⟩) = 0 := by norm_num [mpOf, mpOff]
    have h2 : mpOff (mpOf ⟨y, 3, d, hh', mi', s', ns'⟩ + 1) = 31 := by norm_num [mpOf, mpOff]
    omega
  · have hdm : days_in_month y 4 = 30 := rfl
    have h1 : mpOff (mpOf ⟨y, 4, d, hh', mi', s', ns'⟩) = 31 := by norm_num [mpOf, mpOff]
    have h2 : mpOff (mpOf ⟨y, 4, d, hh', mi', s', ns'⟩ + 1) = 61 := by norm_num [mpOf, mpOff]
    omega
  · have hdm : days_in_month y 5 = 31 := rfl
    have h1 : mpOff (mpOf ⟨y, 5, d, hh', mi', s', ns'⟩) = 61 := by norm_num [mpOf, mpOff]
    have h2 : mpOff (mpOf ⟨y, 5, d, hh', mi', s', ns'⟩ + 1) = 92 := by norm_num [mpOf, mpOff]
    omega
  · have hdm : days_in_month y 6 = 30 := rfl
    have h1 : mpOff (mpOf ⟨y, 6, d, hh', mi', s', ns'⟩) = 92 := by norm_num [mpOf, mpOff]
    have h2 : mpOff (mpOf ⟨y, 6, d, hh', mi', s', ns'⟩ + 1) = 122 := by norm_num [mpOf, mpOff]
    omega
  · have hdm : days_in_month y 7 = 31 := rfl
    have h1 : mpOff (mpOf ⟨y, 7, d, hh', mi', s', ns'⟩) = 122 := by norm_num [mpOf, mpOff]
    have h2 : mpOff (mpOf ⟨y, 7, d, hh', mi', s', ns'⟩ + 1) = 153 := by norm_num [mpOf, mpOff]
    omega
  · have hdm : days_in_month y 8 = 31 := rfl
    have h1 : mpOff (mpOf ⟨y, 8, d, hh', mi', s', ns'⟩) = 153 := by norm_num [mpOf, mpOff]
    have h2 : mpOff (mpOf ⟨y, 8, d, hh', mi', s', ns'⟩ + 1) = 184 := by norm_num [mpOf, mpOff]
    omega
  · have hdm : days_in_month y 9 = 30 := rfl
    have h1 : mpOff (mpOf ⟨y, 9, d, hh', mi', s', ns'⟩) = 184 := by norm_num [mpOf, mpOff]
    have h2 : mpOff (mpOf ⟨y, 9, d, hh', mi', s', ns'⟩ + 1) = 214 := by norm_num [mpOf, mpOff]
    omega
  · have hdm : days_in_month y 10 = 31 := rfl
    have h1 : mpOff (mpOf ⟨y, 10, d, hh', mi', s', ns'⟩) = 214 := by norm_num [mpOf, mpOff]
    have h2 : mpOff (mpOf ⟨y, 10, d, hh', mi', s', ns'⟩ + 1) = 245 := by norm_num [mpOf, mpOff]
    omega
  · have hdm : days_in_month y 11 = 30 := rfl
    have h1 : mpOff (mpOf ⟨y, 11, d, hh', mi', s', ns'⟩) = 245 := by norm_num [mpOf, mpOff]
    have h2 : mpOff (mpOf ⟨y, 11, d, hh', mi', s', ns'⟩ + 1) = 275 := by norm_num [mpOf, mpOff]
    omega
  · have hdm : days_in_month y 12 = 31 := rfl
    have h1 : mpOff (mpOf ⟨y, 12, d, hh', mi', s', ns'⟩) = 275 := by norm_num [mpOf, mpOff]
    have h2 : mpOff (mpOf ⟨y, 12, d, hh', mi', s', ns'⟩ + 1) = 306 := by norm_num [mpOf, mpOff]
    omega

theorem marchY_cases (t : NanoTime) (hy : 1970 ≤ t.year) :
    1969 ≤ marchY t ∧ marchY t ≤ t.year ∧
      (t.month ≤ 2 → marchY t = t.year - 1) ∧ (2 < t.month → marchY t = t.year) := by
  unfold marchY
  split_ifs with hc <;> omega

theorem tes_nat_valid (t : NanoTime) (hv : Valid t) (hy : 1970 ≤ t.year) :
    NanoTime.tesDays t = (natDays t : Int) - 719468 := by
  have hY : NanoTime.tesY t = (marchY t : Int) := by
    unfold NanoTime.tesY marchY
    split_ifs with hc
    · omega
    · rfl
  have hq : (marchY t : Int).tdiv 400 = ((marchY t / 400 : Nat) : Int) :=
    tdiv_coe (marchY t) 400
  have hEra : NanoTime.tesEra t = ((marchY t / 400 : Nat) : Int) := by
    unfold NanoTime.tesEra
    rw [hY, if_pos (Int.natCast_nonneg _)]
    exact hq
  have hYoe : NanoTime.tesYoe t = marchY t % 400 := by
    unfold NanoTime.tesYoe
    rw [hY, hEra]
    omega
  have hDoe : NanoTime.tesDoe t = yoeDays (marchY t % 400) + NanoTime.tesDoy t := by
    unfold NanoTime.tesDoe yoeDays
    rw [hYoe]
    omega
  unfold NanoTime.tesDays natDays yearStart
  rw [hEra, hDoe]
  push_cast
  omega

theorem natDays_ge (t : NanoTime) (hv : Valid t) (hy : 1970 ≤ t.year) :
    719468 ≤ natDays t := by
  obtain ⟨heq, hmp11, hlo, hiff⟩ := valid_doy_basic t hv
  obtain ⟨hge, hle, hm2, hm3⟩ := marchY_cases t hy
  unfold natDays
  by_cases hc : marchY t = 1969
  · -- only January/February 1970 start here; doy ≥ 306 closes the gap
    have hmon2 : t.month ≤ 2 := by
      by_contra hcon
      have := hm3 (by omega)
      omega
    have hmp10 : 10 ≤ mpOf t := hiff.mp hmon2
    have h306 : mpOff 10 ≤ mpOff (mpOf t) := mpOff_mono _ _ hmp10
    have hv306 : mpOff 10 = 306 := by decide
    have hys : yearStart 1969 = 719162 := by decide
    rw [hc, hys]
    omega
  · have h70 : 1970 ≤ marchY t := by omega
    have hmono := yearStart_mono 1970 (marchY t) h70
    have hys : yearStart 1970 = 719527 := by decide
    omega

theorem natDays_le (t : NanoTime) (hv : Valid t) (hy2 : t.year ≤ 65535) :
    natDays t ≤ 24500000 := by
  obtain ⟨heq, hmp11, hlo, hiff⟩ := valid_doy_basic t hv
  have hd31 : t.day ≤ 31 := le_trans hv.2.2.2.1 (days_in_month_le31 _ _)
  have hoff : mpOff (mpOf t) ≤ mpOff 11 := mpOff_mono _ _ hmp11
  have hoffv : mpOff 11 = 337 := by decide
  have hm : marchY t ≤ 65535 := by
    unfold marchY
    split_ifs <;> omega
  unfold natDays yearStart
  have hq : marchY t / 400 ≤ 163 := by omega
  have hyd : yoeDays (marchY t % 400) ≤ 146100 := by
    unfold yoeDays
    have : marchY t % 400 ≤ 399 := by omega
    omega
  omega

theorem to_epoch_secs_valid (t : NanoTime) (hv : Valid t) (hy : 1970 ≤ t.year)
    (hy2 : t.year ≤ 65535) :
    NanoTime.to_epoch_secs t
      = (natDays t - 719468) * 86400 + t.hour * 3600 + t.minute * 60 + t.second := by
  have hdays := tes_nat_valid t hv hy
  have hge := natDays_ge t hv hy
  have hle := natDays_le t hv hy2
  obtain ⟨-, -, -, -, hh, hmi, hs, -⟩ := hv
  unfold NanoTime.to_epoch_secs
  rw [hdays]
  have hcast : (natDays t : Int) - 719468 = ((natDays t - 719468 : Nat) : Int) := by
    omega
  rw [hcast, wrapU64_coe _ (by omega)]
  omega

theorem natDays_congr (a b : NanoTime) (hy : a.year = b.year)
    (hm : a.month = b.month) (hd : a.day = b.day) : natDays a = natDays b := by
  unfold natDays marchY NanoTime.tesDoy
  rw [hy, hm, hd]

/-- Lexicographic (year, month, day) order maps to lexicographic
(March-year, month proxy, day) order. -/
theorem dateLex_march (ya ma da yb mb db : Nat)
    (hm1a : 1 ≤ ma) (hm12a : ma ≤ 12) (hm1b : 1 ≤ mb) (hm12b : mb ≤ 12)
    (hya : 1970 ≤ ya) (hyb : 1970 ≤ yb)
    (hl : ya < yb ∨ (ya = yb ∧ (ma < mb ∨ (ma = mb ∧ da < db)))) :
    (if ma ≤ 2 then ya - 1 else ya) < (if mb ≤ 2 then yb - 1 else yb) ∨
    ((if ma ≤ 2 then ya - 1 else ya) = (if mb ≤ 2 then yb - 1 else yb) ∧
      ((if ma > 2 then ma - 3 else ma + 9) < (if mb > 2 then mb - 3 else mb + 9) ∨
        ((if ma > 2 then ma - 3 else ma + 9) = (if mb > 2 then mb - 3 else mb + 9) ∧
          da < db))) := by
  split_ifs <;> omega

theorem natDays_lt (a b : NanoTime) (hva : Valid a) (hvb : Valid b)
    (hya : 1970 ≤ a.year) (hyb : 1970 ≤ b.year)
    (hl : a.year < b.year ∨ (a.year = b.year ∧
      (a.month < b.month ∨ (a.month = b.month ∧ a.day < b.day)))) :
    natDays a < natDays b := by
  obtain ⟨heqa, hmpa11, hloa, hiffa⟩ := valid_doy_basic a hva
  obtain ⟨heqb, hmpb11, hlob, hiffb⟩ := valid_doy_basic b hvb
  have hlena := valid_doy_len a hva (by omega)
  have hnexta := valid_doy_next a hva
  have hm1a := hva.1
  have hm12a := hva.2.1
  have hm1b := hvb.1
  have hm12b := hvb.2.1
  have hd1a := hva.2.2.1
  have hd1b := hvb.2.2.1
  have hmab : marchY a < marchY b ∨ (marchY a = marchY b ∧
      (mpOf a < mpOf b ∨ (mpOf a = mpOf b ∧ a.day < b.day))) :=
    dateLex_march a.year a.month a.day b.year b.month b.day hm1a hm12a hm1b hm12b
      hya hyb hl
  rcases hmab with hY | ⟨hYeq, hrest⟩
  · have hstep := yearStart_step (marchY a)
    have hmono : yearStart (marchY a + 1) ≤ yearStart (marchY b) :=
      yearStart_mono _ _ (by omega)
    unfold natDays
    omega
  · rcases hrest with hmp | ⟨hmpeq, hday⟩
    · have h2 : mpOff (mpOf a + 1) ≤ mpOff (mpOf b) := mpOff_mono _ _ (by omega)
      unfold natDays
      rw [hYeq]
      omega
    · unfold natDays
      rw [hYeq, heqa, heqb, hmpeq]
      omega

theorem nanos_lt_of_ltLex (a b : NanoTime) (hva : Valid a) (hvb : Valid b)
    (hya : 1970 ≤ a.year) (hyb : 1970 ≤ b.year)
    (hy2a : a.year ≤ 65535) (hy2b : b.year ≤ 65535) (hl : ltLex a b) :
    NanoTime.to_epoch_nanos a < NanoTime.to_epoch_nanos b := by
  have hsa := to_epoch_secs_valid a hva hya hy2a
  have hsb := to_epoch_secs_valid b hvb hyb hy2b
  have hga := natDays_ge a hva hya
  have hgb := natDays_ge b hvb hyb
  have hha := hva.2.2.2.2.1
  have hmia := hva.2.2.2.2.2.1
  have hsea := hva.2.2.2.2.2.2.1
  have hnsa := hva.2.2.2.2.2.2.2
  have hhb := hvb.2.2.2.2.1
  have hmib := hvb.2.2.2.2.2.1
  have hseb := hvb.2.2.2.2.2.2.1
  have hnsb := hvb.2.2.2.2.2.2.2
  unfold NanoTime.to_epoch_nanos
  rw [hsa, hsb]
  unfold ltLex at hl
  by_cases hdeq : a.year = b.year ∧ a.month = b.month ∧ a.day = b.day
  · have hnd : natDays a = natDays b := natDays_congr a b hdeq.1 hdeq.2.1 hdeq.2.2
    omega
  · have hdl : a.year < b.year ∨ (a.year = b.year ∧
        (a.month < b.month ∨ (a.month = b.month ∧ a.day < b.day))) := by
      omega
    have hnd := natDays_lt a b hva hvb hya hyb hdl
    omega

theorem ltLex_trichotomy (a b : NanoTime) : ltLex a b ∨ a = b ∨ ltLex b a := by
  obtain ⟨ya, ma, da, ha, mia, sa, nsa⟩ := a
  obtain ⟨yb, mb, db, hb, mib, sb, nsb⟩ := b
  simp only [ltLex, NanoTime.mk.injEq]
  omega

/-- Claim C6 counterexample: the claim quantifies over ALL valid instances,
but for dates before 1970-01-01 `to_epoch_secs` wraps modulo `2^64` (the
negative day count is cast to `u64`), so 1969-01-01 maps to a huge epoch
value and chronological order breaks: lexicographically
1969-01-01 < 1970-01-01, yet its `to_epoch_nanos` is larger. -/
theorem claim_C6_counterexample :
    Valid ⟨1969, 1, 1, 0, 0, 0, 0⟩ ∧ Valid ⟨1970, 1, 1, 0, 0, 0, 0⟩ ∧
    ltLex ⟨1969, 1, 1, 0, 0, 0, 0⟩ ⟨1970, 1, 1, 0, 0, 0, 0⟩ ∧
    ¬ (NanoTime.to_epoch_nanos ⟨1969, 1, 1, 0, 0, 0, 0⟩ <
        NanoTime.to_epoch_nanos ⟨1970, 1, 1, 0, 0, 0, 0⟩) := by
  refine ⟨by decide, by decide, by decide, by decide⟩

/-- Claim C6 (amended): for valid instances with year in `[1970, 65535]`
(dates at/after the Unix epoch, within the `u16` year range) the derived
lexicographic order and equality over
(year, month, day, hour, minute, second, nanosecond) match chronological
order of `to_epoch_nanos` exactly. -/
theorem claim_C6 (a b : NanoTime) (hva : Valid a) (hvb : Valid b)
    (hya : 1970 ≤ a.year) (hyb : 1970 ≤ b.year)
    (hy2a : a.year ≤ 65535) (hy2b : b.year ≤ 65535) :
    (ltLex a b ↔ NanoTime.to_epoch_nanos a < NanoTime.to_epoch_nanos b) ∧
    (a = b ↔ NanoTime.to_epoch_nanos a = NanoTime.to_epoch_nanos b) := by
  constructor
  · constructor
    · exact fun hl => nanos_lt_of_ltLex a b hva hvb hya hyb hy2a hy2b hl
    · intro hlt
      rcases ltLex_trichotomy a b with h | h | h
      · exact h
      · rw [h] at hlt
        omega
      · have := nanos_lt_of_ltLex b a hvb hva hyb hya hy2b hy2a h
        omega
  · constructor
    · intro he
      rw [he]
    · intro he
      rcases ltLex_trichotomy a b with h | h | h
      · have := nanos_lt_of_ltLex a b hva hvb hya hyb hy2a hy2b h
        omega
      · exact h
      · have := nanos_lt_of_ltLex b a hvb hva hyb hya hy2b hy2a h
        omega

theorem claim_C6_witness :
    (ltLex ⟨2026, 2, 22, 9, 5, 3, 0⟩ ⟨2026, 2, 22, 9, 5, 3, 1⟩ ↔
      NanoTime.to_epoch_nanos ⟨2026, 2, 22, 9, 5, 3, 0⟩ <
        NanoTime.to_epoch_nanos ⟨2026, 2, 22, 9, 5, 3, 1⟩) ∧
    ((⟨2026, 2, 22, 9, 5, 3, 0⟩ : NanoTime) = ⟨2026, 2, 22, 9, 5, 3, 1⟩ ↔
      NanoTime.to_epoch_nanos ⟨2026, 2, 22, 9, 5, 3, 0⟩ =
        NanoTime.to_epoch_nanos ⟨2026, 2, 22, 9, 5, 3, 1⟩) :=
  claim_C6 ⟨2026, 2, 22, 9, 5, 3, 0⟩ ⟨2026, 2, 22, 9, 5, 3, 1⟩
    (by decide) (by decide) (by decide) (by decide) (by decide) (by decide)

/-! ### Differences (C7) -/

theorem toI64_small (n : Nat) (h : n < 2 ^ 63) : toI64 n = n := by
  unfold toI64
  rw [if_pos h]

theorem wrapI64_small (x : Int) (h1 : -(2 ^ 63) ≤ x) (h2 : x < 2 ^ 63) :
    wrapI64 x = x := by
  unfold wrapI64
  omega

theorem toI128_small (n : Nat) (h : n < 2 ^ 127) : toI128 n = n := by
  unfold toI128
  rw [if_pos h]

set_option maxRecDepth 8000 in
theorem wrapI128_small (x : Int) (h1 : -(2 ^ 127) ≤ x) (h2 : x < 2 ^ 127) :
    wrapI128 x = x := by
  unfold wrapI128
  omega

set_option maxRecDepth 2000 in
theorem to_epoch_secs_bound (t : NanoTime) (hv : Valid t) (hy : 1970 ≤ t.year)
    (hy2 : t.year ≤ 65535) : NanoTime.to_epoch_secs t < 2100000000000 := by
  rw [to_epoch_secs_valid t hv hy hy2]
  have hle := natDays_le t hv hy2
  obtain ⟨-, -, -, -, hh, hmi, hs, -⟩ := hv
  omega

theorem to_epoch_ms_eq (t : NanoTime) (hv : Valid t) (hy : 1970 ≤ t.year)
    (hy2 : t.year ≤ 65535) :
    NanoTime.to_epoch_ms t
      = NanoTime.to_epoch_secs t * 1000 + t.nanosecond / 1000000 := by
  have hb := to_epoch_secs_bound t hv hy hy2
  have hns := hv.2.2.2.2.2.2.2
  unfold NanoTime.to_epoch_ms
  omega

theorem diff_secs_eq (a b : NanoTime) (hva : Valid a) (hvb : Valid b)
    (hya : 1970 ≤ a.year) (hyb : 1970 ≤ b.year)
    (hy2a : a.year ≤ 65535) (hy2b : b.year ≤ 65535) :
    NanoTime.diff_secs a b
      = (NanoTime.to_epoch_secs a : Int) - NanoTime.to_epoch_secs b := by
  have hba := to_epoch_secs_bound a hva hya hy2a
  have hbb := to_epoch_secs_bound b hvb hyb hy2b
  unfold NanoTime.diff_secs
  rw [toI64_small _ (by omega), toI64_small _ (by omega)]
  exact wrapI64_small _ (by omega) (by omega)

theorem diff_ms_eq (a b : NanoTime) (hva : Valid a) (hvb : Valid b)
    (hya : 1970 ≤ a.year) (hyb : 1970 ≤ b.year)
    (hy2a : a.year ≤ 65535) (hy2b : b.year ≤ 65535) :
    NanoTime.diff_ms a b
      = (NanoTime.to_epoch_ms a : Int) - NanoTime.to_epoch_ms b := by
  have hba := to_epoch_secs_bound a hva hya hy2a
  have hbb := to_epoch_secs_bound b hvb hyb hy2b
  have hma := to_epoch_ms_eq a hva hya hy2a
  have hmb := to_epoch_ms_eq b hvb hyb hy2b
  have hnsa := hva.2.2.2.2.2.2.2
  have hnsb := hvb.2.2.2.2.2.2.2
  unfold NanoTime.diff_ms
  rw [toI64_small _ (by omega), toI64_small _ (by omega)]
  exact wrapI64_small _ (by omega) (by omega)

theorem diff_us_eq (a b : NanoTime) (hva : Valid a) (hvb : Valid b)
    (hya : 1970 ≤ a.year) (hyb : 1970 ≤ b.year)
    (hy2a : a.year ≤ 65535) (hy2b : b.year ≤ 65535) :
    NanoTime.diff_us a b
      = (NanoTime.to_epoch_us a : Int) - NanoTime.to_epoch_us b := by
  have hba := to_epoch_secs_bound a hva hya hy2a
  have hbb := to_epoch_secs_bound b hvb hyb hy2b
  have hua : NanoTime.to_epoch_us a
      = NanoTime.to_epoch_secs a * 1000000 + a.nanosecond / 1000 := rfl
  have hub : NanoTime.to_epoch_us b
      = NanoTime.to_epoch_secs b * 1000000 + b.nanosecond / 1000 := rfl
  have hnsa := hva.2.2.2.2.2.2.2
  have hnsb := hvb.2.2.2.2.2.2.2
  unfold NanoTime.diff_us
  rw [toI128_small _ (by omega), toI128_small _ (by omega)]
  exact wrapI128_small _ (by omega) (by omega)

theorem diff_nanos_eq (a b : NanoTime) (hva : Valid a) (hvb : Valid b)
    (hya : 1970 ≤ a.year) (hyb : 1970 ≤ b.year)
    (hy2a : a.year ≤ 65535) (hy2b : b.year ≤ 65535) :
    NanoTime.diff_nanos a b
      = (NanoTime.to_epoch_nanos a : Int) - NanoTime.to_epoch_nanos b := by
  have hba := to_epoch_secs_bound a hva hya hy2a
  have hbb := to_epoch_secs_bound b hvb hyb hy2b
  have hua : NanoTime.to_epoch_nanos a
      = NanoTime.to_epoch_secs a * 1000000000 + a.nanosecond := rfl
  have hub : NanoTime.to_epoch_nanos b
      = NanoTime.to_epoch_secs b * 1000000000 + b.nanosecond := rfl
  have hnsa := hva.2.2.2.2.2.2.2
  have hnsb := hvb.2.2.2.2.2.2.2
  unfold NanoTime.diff_nanos
  rw [toI128_small _ (by omega), toI128_small _ (by omega)]
  exact wrapI128_small _ (by omega) (by omega)

theorem to_epoch_secs_congr (a b : NanoTime) (h1 : a.year = b.year)
    (h2 : a.month = b.month) (h3 : a.day = b.day) (h4 : a.hour = b.hour)
    (h5 : a.minute = b.minute) (h6 : a.second = b.second) :
    NanoTime.to_epoch_secs a = NanoTime.to_epoch_secs b := by
  have hY : NanoTime.tesY a = NanoTime.tesY b := by
    unfold NanoTime.tesY
    rw [h1, h2]
  have hEra : NanoTime.tesEra a = NanoTime.tesEra b := by
    unfold NanoTime.tesEra
    rw [hY]
  have hYoe : NanoTime.tesYoe a = NanoTime.tesYoe b := by
    unfold NanoTime.tesYoe
    rw [hY, hEra]
  have hDoy : NanoTime.tesDoy a = NanoTime.tesDoy b := by
    unfold NanoTime.tesDoy
    rw [h2, h3]
  have hDoe : NanoTime.tesDoe a = NanoTime.tesDoe b := by
    unfold NanoTime.tesDoe
    rw [hYoe, hDoy]
  have hDays : NanoTime.tesDays a = NanoTime.tesDays b := by
    unfold NanoTime.tesDays
    rw [hEra, hDoe]
  unfold NanoTime.to_epoch_secs
  rw [hDays, h4, h5, h6]

/-- Claim C7 counterexample: the claim quantifies over ALL valid instances.
For 1969-01-01 the `u64` epoch-seconds value wraps (it is `2^64 - 31536000`)
and the `as i64` cast then re-interprets it as negative, so `diff_secs` does
not equal the signed subtraction of the two operands' epoch-seconds values:
against 1970-01-01 it returns `-31536000` instead of `2^64 - 31536000`. -/
theorem claim_C7_counterexample :
    Valid ⟨1969, 1, 1, 0, 0, 0, 0⟩ ∧ Valid ⟨1970, 1, 1, 0, 0, 0, 0⟩ ∧
    NanoTime.diff_secs ⟨1969, 1, 1, 0, 0, 0, 0⟩ ⟨1970, 1, 1, 0, 0, 0, 0⟩ ≠
      (NanoTime.to_epoch_secs ⟨1969, 1, 1, 0, 0, 0, 0⟩ : Int) -
        NanoTime.to_epoch_secs ⟨1970, 1, 1, 0, 0, 0, 0⟩ := by
  refine ⟨by decide, by decide, by decide⟩

/-- Claim C7 (amended): for valid instances with year in `[1970, 65535]`,
every difference operation equals the signed subtraction of the two
operands' epoch values at that granularity (self minus other); each is
antisymmetric, and each is zero exactly when the operands share that
granularity's epoch value (in particular `diff_secs` is zero whenever the
two records differ only in the nanosecond field). -/
theorem claim_C7 (a b : NanoTime) (hva : Valid a) (hvb : Valid b)
    (hya : 1970 ≤ a.year) (hyb : 1970 ≤ b.year)
    (hy2a : a.year ≤ 65535) (hy2b : b.year ≤ 65535) :
    (NanoTime.diff_secs a b
      = (NanoTime.to_epoch_secs a : Int) - NanoTime.to_epoch_secs b) ∧
    (NanoTime.diff_ms a b
      = (NanoTime.to_epoch_ms a : Int) - NanoTime.to_epoch_ms b) ∧
    (NanoTime.diff_us a b
      = (NanoTime.to_epoch_us a : Int) - NanoTime.to_epoch_us b) ∧
    (NanoTime.diff_nanos a b
      = (NanoTime.to_epoch_nanos a : Int) - NanoTime.to_epoch_nanos b) ∧
    NanoTime.diff_secs a b = -NanoTime.diff_secs b a ∧
    NanoTime.diff_ms a b = -NanoTime.diff_ms b a ∧
    NanoTime.diff_us a b = -NanoTime.diff_us b a ∧
    NanoTime.diff_nanos a b = -NanoTime.diff_nanos b a ∧
    (NanoTime.diff_secs a b = 0 ↔
      NanoTime.to_epoch_secs a = NanoTime.to_epoch_secs b) ∧
    (NanoTime.diff_ms a b = 0 ↔ NanoTime.to_epoch_ms a = NanoTime.to_epoch_ms b) ∧
    (NanoTime.diff_us a b = 0 ↔ NanoTime.to_epoch_us a = NanoTime.to_epoch_us b) ∧
    (NanoTime.diff_nanos a b = 0 ↔
      NanoTime.to_epoch_nanos a = NanoTime.to_epoch_nanos b) ∧
    ((a.year = b.year ∧ a.month = b.month ∧ a.day = b.day ∧ a.hour = b.hour ∧
      a.minute = b.minute ∧ a.second = b.second) → NanoTime.diff_secs a b = 0) := by
  have h1 := diff_secs_eq a b hva hvb hya hyb hy2a hy2b
  have h1r := diff_secs_eq b a hvb hva hyb hya hy2b hy2a
  have h2 := diff_ms_eq a b hva hvb hya hyb hy2a hy2b
  have h2r := diff_ms_eq b a hvb hva hyb hya hy2b hy2a
  have h3 := diff_us_eq a b hva hvb hya hyb hy2a hy2b
  have h3r := diff_us_eq b a hvb hva hyb hya hy2b hy2a
  have h4 := diff_nanos_eq a b hva hvb hya hyb hy2a hy2b
  have h4r := diff_nanos_eq b a hvb hva hyb hya hy2b hy2a
  refine ⟨h1, h2, h3, h4, by omega, by omega, by omega, by omega,
    by omega, by omega, by omega, by omega, fun hf => ?_⟩
  have := to_epoch_secs_congr a b hf.1 hf.2.1 hf.2.2.1 hf.2.2.2.1 hf.2.2.2.2.1
    hf.2.2.2.2.2
  omega

theorem claim_C7_witness :
    NanoTime.diff_secs ⟨2001, 9, 9, 1, 46, 40, 0⟩ ⟨2001, 9, 9, 1, 46, 40, 999999999⟩
      = 0 := by
  have h := claim_C7 ⟨2001, 9, 9, 1, 46, 40, 0⟩ ⟨2001, 9, 9, 1, 46, 40, 999999999⟩
    (by decide) (by decide) (by decide) (by decide) (by decide) (by decide)
  exact h.2.2.2.2.2.2.2.2.2.2.2.2 ⟨rfl, rfl, rfl, rfl, rfl, rfl⟩

/-- Claim C8: `relative_to` buckets the absolute epoch-seconds difference
(sub-second fields ignored; in `Nat`, `(x - y) + (y - x)` is the absolute
difference of `x` and `y`) as: 0 → "just now" (no direction); 1–59 →
"{d}s"; 60–3599 → "{d/60}m"; 3600–86399 → "{d/3600}h"; ≥86400 →
"{d/86400}d"; appending " ago" when `a` is at or before `b` (by
epoch-seconds value), prepending "in " otherwise. -/
theorem claim_C8 (a b : NanoTime) (hva : Valid a) (hvb : Valid b) :
    ∀ d, d = (NanoTime.to_epoch_secs a - NanoTime.to_epoch_secs b)
        + (NanoTime.to_epoch_secs b - NanoTime.to_epoch_secs a) →
    ((d = 0 → NanoTime.relative_to a b = "just now") ∧
     (1 ≤ d → d ≤ 59 → NanoTime.relative_to a b =
        (if NanoTime.to_epoch_secs a ≤ NanoTime.to_epoch_secs b
          then fmtNat d ++ "s" ++ " ago" else "in " ++ (fmtNat d ++ "s"))) ∧
     (60 ≤ d → d ≤ 3599 → NanoTime.relative_to a b =
        (if NanoTime.to_epoch_secs a ≤ NanoTime.to_epoch_secs b
          then fmtNat (d / 60) ++ "m" ++ " ago" else "in " ++ (fmtNat (d / 60) ++ "m"))) ∧
     (3600 ≤ d → d ≤ 86399 → NanoTime.relative_to a b =
        (if NanoTime.to_epoch_secs a ≤ NanoTime.to_epoch_secs b
          then fmtNat (d / 3600) ++ "h" ++ " ago" else "in " ++ (fmtNat (d / 3600) ++ "h"))) ∧
     (86400 ≤ d → NanoTime.relative_to a b =
        (if NanoTime.to_epoch_secs a ≤ NanoTime.to_epoch_secs b
          then fmtNat (d / 86400) ++ "d" ++ " ago"
          else "in " ++ (fmtNat (d / 86400) ++ "d")))) := by
  intro d hd
  simp only [NanoTime.relative_to]
  by_cases hc : NanoTime.to_epoch_secs a ≤ NanoTime.to_epoch_secs b
  · rw [if_pos hc, if_pos hc,
      show NanoTime.to_epoch_secs b - NanoTime.to_epoch_secs a = d from by omega]
    refine ⟨fun h0 => ?_, fun hg hl => ?_, fun hg hl => ?_, fun hg hl => ?_,
      fun hg => ?_⟩
    · rw [if_pos h0]
    · rw [if_neg (show ¬(d = 0) from by omega), if_pos (show d ≤ 59 from by omega), if_pos hc]
    · rw [if_neg (show ¬(d = 0) from by omega), if_neg (show ¬(d ≤ 59) from by omega),
        if_pos (show d ≤ 3599 from by omega), if_pos hc]
    · rw [if_neg (show ¬(d = 0) from by omega), if_neg (show ¬(d ≤ 59) from by omega),
        if_neg (show ¬(d ≤ 3599) from by omega), if_pos (show d ≤ 86399 from by omega), if_pos hc]
    · rw [if_neg (show ¬(d = 0) from by omega), if_neg (show ¬(d ≤ 59) from by omega),
        if_neg (show ¬(d ≤ 3599) from by omega), if_neg (show ¬(d ≤ 86399) from by omega), if_pos hc]
  · rw [if_neg hc, if_neg hc,
      show NanoTime.to_epoch_secs a - NanoTime.to_epoch_secs b = d from by omega]
    refine ⟨fun h0 => ?_, fun hg hl => ?_, fun hg hl => ?_, fun hg hl => ?_,
      fun hg => ?_⟩
    · exact absurd h0 (by omega)
    · rw [if_neg (show ¬(d = 0) from by omega), if_pos (show d ≤ 59 from by omega), if_neg hc]
    · rw [if_neg (show ¬(d = 0) from by omega), if_neg (show ¬(d ≤ 59) from by omega),
        if_pos (show d ≤ 3599 from by omega), if_neg hc]
    · rw [if_neg (show ¬(d = 0) from by omega), if_neg (show ¬(d ≤ 59) from by omega),
        if_neg (show ¬(d ≤ 3599) from by omega), if_pos (show d ≤ 86399 from by omega), if_neg hc]
    · rw [if_neg (show ¬(d = 0) from by omega), if_neg (show ¬(d ≤ 59) from by omega),
        if_neg (show ¬(d ≤ 3599) from by omega), if_neg (show ¬(d ≤ 86399) from by omega), if_neg hc]

theorem claim_C8_witness :
    NanoTime.relative_to (NanoTime.from_epoch 999970) (NanoTime.from_epoch 1000000)
      = "30s ago" := by
  have h := (claim_C8 (NanoTime.from_epoch 999970) (NanoTime.from_epoch 1000000)
    (by decide) (by decide) 30 (by decide)).2.1 (by decide) (by decide)
  rw [h]
  decide

/-! ### Formatting (C9) -/

theorem digitChar_mem (m : Nat) (h : m < 10) :
    Nat.digitChar m ∈ ['0', '1', '2', '3', '4', '5', '6', '7', '8', '9'] := by
  interval_cases m <;> decide

theorem fmtNatAux_digits :
    ∀ fuel n c, c ∈ fmtNatAux fuel n →
      c ∈ ['0', '1', '2', '3', '4', '5', '6', '7', '8', '9'] := by
  intro fuel
  induction fuel with
  | zero =>
    intro n c h
    simp [fmtNatAux] at h
  | succ f ih =>
    intro n c h
    rw [fmtNatAux] at h
    split at h
    · rename_i h10
      simp only [List.mem_singleton] at h
      subst h
      exact digitChar_mem n (by omega)
    · rcases List.mem_append.mp h with h1 | h2
      · exact ih (n / 10) c h1
      · simp only [List.mem_singleton] at h2
        subst h2
        exact digitChar_mem (n % 10) (by omega)

theorem dot_not_in_padZ (w n : Nat) : '.' ∉ (padZ w n).data := by
  unfold padZ
  intro h
  rcases List.mem_append.mp h with h1 | h2
  · have := List.eq_of_mem_replicate h1
    simp at this
  · have := fmtNatAux_digits 40 n '.' h2
    simp at this

theorem dot_not_in_datetime0 (t : NanoTime) :
    '.' ∉ (NanoTime.datetime_fmt t 0).data := by
  simp only [NanoTime.datetime_fmt, NanoTime.date]
  rw [show (min 0 9 : Nat) = 0 from rfl, if_pos rfl]
  intro h
  simp only [String.data_append, List.mem_append] at h
  rcases h with ((((((((((h | h) | h) | h) | h) | h) | h) | h) | h) | h) | h) <;>
    first
    | exact dot_not_in_padZ _ _ h
    | simp at h

/-- Claim C9: `datetime_fmt` clamps precision above 9 to 9; precision 0
yields no decimal point; for `1 ≤ p ≤ 9` the output is the precision-0
output followed by "." and the first `p` characters of the nanosecond value
zero-padded to 9 digits (truncation, not rounding). -/
theorem claim_C9 (t : NanoTime) (hv : Valid t) :
    (∀ p, 9 < p → NanoTime.datetime_fmt t p = NanoTime.datetime_fmt t 9) ∧
    '.' ∉ (NanoTime.datetime_fmt t 0).data ∧
    (∀ p, 1 ≤ p → p ≤ 9 → NanoTime.datetime_fmt t p
      = NanoTime.datetime_fmt t 0 ++ "." ++ takeFirst (padZ 9 t.nanosecond) p) := by
  refine ⟨fun p hp => ?_, dot_not_in_datetime0 t, fun p h1 h9 => ?_⟩
  · simp only [NanoTime.datetime_fmt]
    rw [min_eq_right (by omega : (9 : Nat) ≤ p), min_self]
  · simp only [NanoTime.datetime_fmt]
    rw [min_eq_left h9, show (min 0 9 : Nat) = 0 from rfl]
    rw [if_neg (by omega), if_pos rfl]

theorem claim_C9_witness :
    NanoTime.datetime_fmt ⟨2026, 2, 22, 14, 30, 5, 123456789⟩ 3
      = "2026-02-22 14:30:05.123" := by
  have h := (claim_C9 ⟨2026, 2, 22, 14, 30, 5, 123456789⟩ (by decide)).2.2 3
    (by decide) (by decide)
  rw [h]
  decide

/-! ### Totality and year wrap (C10) -/

/-- `tesDoy` only reads month and day, so it agrees with the forward day of
year for every input (no domain restriction). -/
theorem tesDoy_eq_all (s : Nat) : NanoTime.tesDoy (epoch_to_date s) = etdDoy s := by
  obtain ⟨hm1, hm12, hd1, hd31, hm2iff, hmpof, hdayeq⟩ := forward_fields s
  have hmplo : mpOff (etdMp s) ≤ etdDoy s := (forward_facts s).2.2.2.2.2.2.2.2.2.1
  have hmonth : (epoch_to_date s).month = etdMonth s := rfl
  have hday : (epoch_to_date s).day = etdDay s := rfl
  unfold NanoTime.tesDoy
  rw [hmonth, hday, hmpof, hdayeq]
  have hmo : mpOff (etdMp s) = (153 * etdMp s + 2) / 5 := rfl
  omega

/-- General day-count formula for `to_epoch_secs`, valid whenever the
March-based year does not go negative. -/
theorem tesDays_general (t : NanoTime) (hg : t.month ≤ 2 → 1 ≤ t.year) :
    NanoTime.tesDays t = ((yearStart (marchY t) + NanoTime.tesDoy t : Nat) : Int)
      - 719468 := by
  have hY : NanoTime.tesY t = (marchY t : Int) := by
    unfold NanoTime.tesY marchY
    split_ifs with hc
    · have := hg hc
      omega
    · rfl
  have hEra : NanoTime.tesEra t = ((marchY t / 400 : Nat) : Int) := by
    unfold NanoTime.tesEra
    rw [hY, if_pos (Int.natCast_nonneg _)]
    exact tdiv_coe (marchY t) 400
  have hYoe : NanoTime.tesYoe t = marchY t % 400 := by
    unfold NanoTime.tesYoe
    rw [hY, hEra]
    omega
  have hDoe : NanoTime.tesDoe t = yoeDays (marchY t % 400) + NanoTime.tesDoy t := by
    unfold NanoTime.tesDoe yoeDays
    rw [hYoe]
    omega
  unfold NanoTime.tesDays yearStart
  rw [hEra, hDoe]
  push_cast
  omega

/-- The day count of the true (unwrapped) conversion. -/
theorem true_days (s : Nat) : yearStart (etdY s) + etdDoy s = s / 86400 + 719468 := by
  obtain ⟨hdoe, hzsplit, hyoe399, hylo, hyhi, hdoyeq, -, -, -, -, -⟩ := forward_facts s
  have hq : etdY s / 400 = etdEra s := by
    unfold etdY
    omega
  have hm : etdY s % 400 = etdYoe s := by
    unfold etdY
    omega
  have hz : etdZ s = s / 86400 + 719468 := rfl
  unfold yearStart
  rw [hq, hm]
  omega

/-- Wrapped year 0 with January/February: the March-based year is -1 and the
day count is a small negative number. -/
theorem tesDays_wrapped_zero (s : Nat) (hz1 : etdMonth s ≤ 2)
    (hz0 : etdYear s % 65536 = 0) :
    NanoTime.tesDays (epoch_to_date s) = (etdDoy s : Int) - 719834 := by
  have hyear : (epoch_to_date s).year = etdYear s % 65536 := rfl
  have hmonth : (epoch_to_date s).month = etdMonth s := rfl
  have hdoyeq := tesDoy_eq_all s
  have hY : NanoTime.tesY (epoch_to_date s) = -1 := by
    unfold NanoTime.tesY
    rw [hmonth, hyear, if_pos hz1, hz0]
    decide
  have hEra : NanoTime.tesEra (epoch_to_date s) = -1 := by
    unfold NanoTime.tesEra
    rw [hY]
    decide
  have hYoe : NanoTime.tesYoe (epoch_to_date s) = 399 := by
    unfold NanoTime.tesYoe
    rw [hY, hEra]
    decide
  have hDoe : NanoTime.tesDoe (epoch_to_date s) = 145731 + etdDoy s := by
    unfold NanoTime.tesDoe
    rw [hYoe, hdoyeq]
  unfold NanoTime.tesDays
  rw [hEra, hDoe]
  push_cast
  ring

/-- Outside the zero corner case, the wrapped March-based year stays below
the true one. -/
theorem marchY_wrapped_lt (s : Nat) (hbig : 65535 < etdYear s)
    (hnz : ¬(etdMonth s ≤ 2 ∧ etdYear s % 65536 = 0)) :
    marchY (epoch_to_date s) < etdY s := by
  have hyear : (epoch_to_date s).year = etdYear s % 65536 := rfl
  have hmonth : (epoch_to_date s).month = etdMonth s := rfl
  have hYsplit : etdYear s = (if etdMonth s ≤ 2 then etdY s + 1 else etdY s) := rfl
  have hmar : marchY (epoch_to_date s)
      = (if etdMonth s ≤ 2 then etdYear s % 65536 - 1 else etdYear s % 65536) := by
    unfold marchY
    rw [hmonth, hyear]
  rw [hmar]
  by_cases hc : etdMonth s ≤ 2
  · rw [if_pos hc]
    rw [hYsplit, if_pos hc] at hbig ⊢
    omega
  · rw [if_neg hc]
    rw [hYsplit, if_neg hc] at hbig ⊢
    omega

/-- Outside the zero corner case, the wrapped day count follows the general
formula with the wrapped March-based year. -/
theorem tesDays_wrapped_pos (s : Nat)
    (hnz : ¬(etdMonth s ≤ 2 ∧ etdYear s % 65536 = 0)) :
    NanoTime.tesDays (epoch_to_date s)
      = ((yearStart (marchY (epoch_to_date s)) + etdDoy s : Nat) : Int) - 719468 := by
  have hyear : (epoch_to_date s).year = etdYear s % 65536 := rfl
  have hmonth : (epoch_to_date s).month = etdMonth s := rfl
  have hg : (epoch_to_date s).month ≤ 2 → 1 ≤ (epoch_to_date s).year := by
    rw [hmonth, hyear]
    intro hc
    rcases Nat.eq_zero_or_pos (etdYear s % 65536) with h0 | h1
    · exact absurd ⟨hc, h0⟩ hnz
    · omega
  rw [tesDays_general (epoch_to_date s) hg, tesDoy_eq_all s]

/-- In the wrapped case the reconstructed day count undershoots the true
one: the stored year is smaller than the true year. -/
theorem tesDays_wrapped (s : Nat) (hbig : 65535 < etdYear s) :
    NanoTime.tesDays (epoch_to_date s) < ((s / 86400 : Nat) : Int) ∧
      -800000 ≤ NanoTime.tesDays (epoch_to_date s) := by
  have hdoy365 : etdDoy s ≤ 365 := (forward_facts s).2.2.2.2.2.2.2.1
  have htd := true_days s
  by_cases hzero : etdMonth s ≤ 2 ∧ etdYear s % 65536 = 0
  · rw [tesDays_wrapped_zero s hzero.1 hzero.2]
    have h0 : (0 : Int) ≤ ((s / 86400 : Nat) : Int) := Int.natCast_nonneg _
    omega
  · have hlt := marchY_wrapped_lt s hbig hzero
    have hmono : yearStart (marchY (epoch_to_date s)) + 365 ≤ yearStart (etdY s) := by
      have h1 := yearStart_add (etdY s - marchY (epoch_to_date s)) (marchY (epoch_to_date s))
      have h2 : marchY (epoch_to_date s) + (etdY s - marchY (epoch_to_date s)) = etdY s := by
        omega
      rw [h2] at h1
      omega
    rw [tesDays_wrapped_pos s hzero]
    push_cast
    omega

/-- The cast in `wrapU64` is plain Euclidean remainder on `Int`. -/
theorem wrapU64_emod (x : Int) : (wrapU64 x : Int) = x % 2 ^ 64 := by
  unfold wrapU64
  have h0 : (0 : Int) ≤ x % 2 ^ 64 := Int.emod_nonneg _ (by norm_num)
  omega

/-- Core wrap-around argument: a day count strictly below the input's day
quotient but no further than 800000 below zero cannot reproduce the input
through the `u64` cast, because the wrap offset would force `86400` to
divide `2^64`. -/
theorem no_roundtrip_arith (W : Nat) (X : Int) (s : Nat) (hs : s < 2 ^ 64)
    (hcast : (W : Int) = X % 2 ^ 64)
    (hD : X < ((s / 86400 : Nat) : Int)) (hL : -800000 ≤ X) :
    (W * 86400 + s % 86400) % 2 ^ 64 ≠ s := by
  have hq4 : s / 86400 ≤ 213503982334601 := by
    clear hcast hD hL
    omega
  have hq4i : ((s / 86400 : Nat) : Int) ≤ 213503982334601 := by exact_mod_cast hq4
  intro heq
  rcases le_or_lt 0 X with hx | hx
  · -- no wrap: W = X and the reconstructed value is strictly below s
    have hWX : (W : Int) = X := by
      rw [hcast]
      clear heq hcast hq4 hs
      omega
    have hWlt : W < s / 86400 := by
      have h1 : (W : Int) < ((s / 86400 : Nat) : Int) := by rw [hWX]; exact hD
      exact_mod_cast h1
    have hV : W * 86400 + s % 86400 < s := by
      clear heq hcast hWX hD hL hx hq4i hs
      omega
    rw [Nat.mod_eq_of_lt (by clear heq hcast hWX hD hL hx hq4i hq4; omega)] at heq
    clear hcast hWX hD hL hx hq4i hq4 hs
    omega
  · -- wrap: W = X + 2^64; factor the equation over Int and refute it
    have hW2 : (W : Int) = X + 2 ^ 64 := by
      rw [hcast]
      clear heq hcast hD hq4 hq4i hs
      omega
    have hk0 := Nat.div_add_mod (W * 86400 + s % 86400) (2 ^ 64)
    rw [heq] at hk0
    have hA := congrArg (fun n : Nat => (n : Int)) hk0
    push_cast at hA
    have hC := congrArg (fun n : Nat => (n : Int)) (Nat.div_add_mod s 86400)
    push_cast at hC
    have hDq : X < (s : Int) / 86400 := by
      rwa [Int.natCast_div] at hD
    have hq4q : (s : Int) / 86400 ≤ 213503982334601 := by
      rwa [Int.natCast_div] at hq4i
    set K : Int := ((W : Int) * 86400 + (s : Int) % 86400) / 18446744073709551616 with hKdef
    set Q : Int := (s : Int) / 86400 with hQdef
    have key : 86400 * (X - Q) = 18446744073709551616 * (K - 86400) := by
      linear_combination (-1 : Int) * hA - 86400 * hW2 - hC
    have hXQ : X ≤ Q - 1 := by
      clear heq hcast hA hC key hq4 hs hk0
      omega
    have hlb : -18446744142829526400 ≤ 86400 * (X - Q) := by linarith
    have hub : 86400 * (X - Q) ≤ -86400 := by linarith
    rw [key] at hlb hub
    have hK1 : K = 86399 := by
      clear heq hcast hA hC key hq4 hs hk0 hD hDq hq4i hq4q hXQ hL hx hW2
      omega
    rw [hK1] at key
    clear heq hcast hA hC hq4 hs hk0 hD hDq hq4i hq4q hXQ hL hx hW2 hlb hub
    omega

/-- For inputs whose true year exceeds 65535 the round trip through the
wrapped year field cannot reproduce the input. -/
theorem wrapped_no_roundtrip (s : Nat) (hs : s < 2 ^ 64) (hbig : 65535 < etdYear s) :
    NanoTime.to_epoch_secs (epoch_to_date s) ≠ s := by
  obtain ⟨hD, hL⟩ := tesDays_wrapped s hbig
  have hhour : (epoch_to_date s).hour = s % 86400 / 3600 := rfl
  have hmin : (epoch_to_date s).minute = s % 86400 % 3600 / 60 := rfl
  have hsec : (epoch_to_date s).second = s % 86400 % 60 := rfl
  have hsum : wrapU64 (NanoTime.tesDays (epoch_to_date s)) * 86400
        + s % 86400 / 3600 * 3600 + s % 86400 % 3600 / 60 * 60 + s % 86400 % 60
      = wrapU64 (NanoTime.tesDays (epoch_to_date s)) * 86400 + s % 86400 := by
    omega
  have hsecs : NanoTime.to_epoch_secs (epoch_to_date s)
      = (wrapU64 (NanoTime.tesDays (epoch_to_date s)) * 86400 + s % 86400) % 2 ^ 64 := by
    unfold NanoTime.to_epoch_secs
    rw [hhour, hmin, hsec, hsum]
  rw [hsecs]
  exact no_roundtrip_arith (wrapU64 (NanoTime.tesDays (epoch_to_date s)))
    (NanoTime.tesDays (epoch_to_date s)) s hs
    (wrapU64_emod (NanoTime.tesDays (epoch_to_date s))) hD hL

/-- C10: `from_epoch` (`epoch_to_date`) is total on all of `u64`: the `i64`
sums `z` and `y` stay far below `2^63`, the `u32` value `doe` stays in
`[0, 146096]`, none of the machine subtractions (`z - era * 146097`, the two
in the `yoe` numerator, `doe - yoeDays`, `doy - mpOff`) underflows, and
`day` and `month` fit `u8`.  The stored year field is the true
proleptic-Gregorian year reduced modulo `2^16` (the `as u16` cast), and
whenever the true year exceeds 65535 the round trip
`to_epoch_secs (from_epoch s)` does not return `s`. -/
theorem claim_C10 (s : Nat) (hs : s < 2 ^ 64) :
    (NanoTime.from_epoch s).year = etdYear s % 65536 ∧
    (65535 < etdYear s → NanoTime.to_epoch_secs (NanoTime.from_epoch s) ≠ s) ∧
    etdZ s < 2 ^ 63 ∧
    etdEra s * 146097 ≤ etdZ s ∧
    etdDoe s ≤ 146096 ∧
    etdDoe s / 1460 ≤ etdDoe s ∧
    etdDoe s / 146096 ≤ etdDoe s - etdDoe s / 1460 + etdDoe s / 36524 ∧
    etdYoe s ≤ 399 ∧
    etdYoe s + etdEra s * 400 < 2 ^ 63 ∧
    365 * etdYoe s + etdYoe s / 4 - etdYoe s / 100 ≤ etdDoe s ∧
    etdDoy s ≤ 365 ∧
    etdMp s ≤ 11 ∧
    (153 * etdMp s + 2) / 5 ≤ etdDoy s ∧
    1 ≤ etdDay s ∧ etdDay s ≤ 31 ∧
    1 ≤ etdMonth s ∧ etdMonth s ≤ 12 := by
  obtain ⟨hdoe, hzsplit, hyoe399, hyd, hup, hdoyeq, hdoylen, hdoy365, hmp, hmplo, hmphi⟩ :=
    forward_facts s
  obtain ⟨hm1, hm12, hd1, hd31, -, -, -⟩ := forward_fields s
  have hfe : NanoTime.from_epoch s = epoch_to_date s := rfl
  have hz63 : etdZ s < 2 ^ 63 := by
    unfold etdZ
    omega
  have hyoedays : yoeDays (etdYoe s) = 365 * etdYoe s + etdYoe s / 4 - etdYoe s / 100 := rfl
  have hmpoff : mpOff (etdMp s) = (153 * etdMp s + 2) / 5 := rfl
  refine ⟨rfl, ?_, hz63, by omega, by omega, by omega, by omega, hyoe399, by omega,
    by omega, hdoy365, hmp, by omega, hd1, hd31, hm1, hm12⟩
  rw [hfe]
  exact wrapped_no_roundtrip s hs

/-- Witness for C10 at two concrete inputs: an in-domain one for the year
field equation and an out-of-domain one (year 67436) for the failed round
trip. -/
theorem claim_C10_witness :
    1000000000 < 2 ^ 64 ∧ 2065912473600 < 2 ^ 64 ∧ 65535 < etdYear 2065912473600 ∧
      (NanoTime.from_epoch 1000000000).year = etdYear 1000000000 % 65536 ∧
      NanoTime.to_epoch_secs (NanoTime.from_epoch 2065912473600) ≠ 2065912473600 :=
  ⟨by decide, by decide, by decide,
    (claim_C10 1000000000 (by decide)).1,
    (claim_C10 2065912473600 (by decide)).2.1 (by decide)⟩
